import Mathlib

/-!
Verification of the asteroids terminal game server (Go sources under
`internal/` and `cmd/`).  Go `float64` arithmetic is embedded as exact
rational arithmetic (`ℚ`); Go `int` as `ℤ` (or `ℕ` where the code keeps the
value provably nonnegative).  Every definition below is a direct
translation of the corresponding Go function, with the file and symbol
named in its doc comment.
-/

namespace Asteroids

/-- Truncation toward zero, the semantics of Go's `int(f)` conversion for a
finite `float64` value `f` (here a rational). -/
def truncQ (q : ℚ) : ℤ :=
  if q < 0 then -⌊-q⌋ else ⌊q⌋

/-- Go `math.Mod(x, y)`: the remainder `x - trunc(x/y)*y`, which has the sign
of `x` (for `y > 0`). -/
def goMod (x y : ℚ) : ℚ :=
  x - (truncQ (x / y) : ℚ) * y

/-- The `Screen` struct of `internal/object/object.go`: terminal or world
dimensions. -/
structure Screen where
  Width : ℤ
  Height : ℤ
  CenterX : ℤ
  CenterY : ℤ
  deriving Repr, DecidableEq

/-- The loop `for *x < 0 { *x += w }` in `Screen.WrapPosition`
(`internal/object/object.go:51`). -/
def wrapUp (w : ℚ) (hw : 0 < w) (x : ℚ) : ℚ :=
  if x < 0 then wrapUp w hw (x + w) else x
  termination_by (⌈-x / w⌉).toNat
  decreasing_by
    have hx : x < 0 := by assumption
    have hxw : -(x + w) / w = -x / w - 1 := by
      field_simp
      ring
    have hpos : 0 < ⌈-x / w⌉ := by
      apply Int.ceil_pos.mpr
      exact div_pos (by linarith) hw
    have hceil : ⌈-(x + w) / w⌉ = ⌈-x / w⌉ - 1 := by
      rw [hxw]
      exact_mod_cast Int.ceil_sub_int (-x / w) 1
    omega

/-- The loop `for *x > w { *x -= w }` in `Screen.WrapPosition`
(`internal/object/object.go:51`). -/
def wrapDown (w : ℚ) (hw : 0 < w) (x : ℚ) : ℚ :=
  if w < x then wrapDown w hw (x - w) else x
  termination_by (⌈x / w⌉).toNat
  decreasing_by
    have hx : w < x := by assumption
    have hxw : (x - w) / w = x / w - 1 := by
      field_simp
    have hpos : 0 < ⌈x / w⌉ := by
      apply Int.ceil_pos.mpr
      exact div_pos (by linarith) hw
    have hceil : ⌈(x - w) / w⌉ = ⌈x / w⌉ - 1 := by
      rw [hxw]
      exact_mod_cast Int.ceil_sub_int (x / w) 1
    omega

/-- One axis of the loop variant of `Screen.WrapPosition`
(`internal/object/object.go:51-71`): guarded by `w > 0`, repeatedly add `w`
while negative, then subtract `w` while above `w`. -/
def wrapLoopAxis (x w : ℚ) : ℚ :=
  if hw : 0 < w then wrapDown w hw (wrapUp w hw x) else x

/-- `Screen.WrapPosition` of `internal/object/object.go:51-71` (the loop
variant), applied to both coordinates. -/
def Screen.wrapPositionLoop (s : Screen) (x y : ℚ) : ℚ × ℚ :=
  (wrapLoopAxis x (s.Width : ℚ), wrapLoopAxis y (s.Height : ℚ))

/-- One axis of the `math.Mod` variant of `Screen.WrapPosition`
(`src/unnamed/part_015:52-68`): `*x = math.Mod(*x, w); if *x < 0 { *x += w }`,
guarded by `w > 0`. -/
def wrapModAxis (x w : ℚ) : ℚ :=
  if 0 < w then (let m := goMod x w; if m < 0 then m + w else m) else x

/-- `Screen.WrapPosition` of `src/unnamed/part_015:52-68` (the `math.Mod`
variant), applied to both coordinates. -/
def Screen.wrapPositionMod (s : Screen) (x y : ℚ) : ℚ × ℚ :=
  (wrapModAxis x (s.Width : ℚ), wrapModAxis y (s.Height : ℚ))

/-- `AsteroidSize` constants of `internal/object/asteroid.go` (`Small = 1`,
`Medium = 2`, `Large = 3`; Go `type AsteroidSize int`). -/
def AsteroidSmall : ℤ := 1

/-- Medium asteroid size tier (`internal/object/asteroid.go`). -/
def AsteroidMedium : ℤ := 2

/-- Large asteroid size tier (`internal/object/asteroid.go`). -/
def AsteroidLarge : ℤ := 3

/-- The `asteroidRadii` map of `internal/object/asteroid.go` (a missing key
yields Go's zero value `0.0`). -/
def asteroidRadii (size : ℤ) : ℚ :=
  if size = AsteroidSmall then 3/2
  else if size = AsteroidMedium then 3
  else if size = AsteroidLarge then 5
  else 0

/-- The `asteroidSpeeds` map of `internal/object/asteroid.go`. -/
def asteroidSpeeds (size : ℤ) : ℚ :=
  if size = AsteroidSmall then 15
  else if size = AsteroidMedium then 10
  else if size = AsteroidLarge then 6
  else 0

/-- The `Asteroid` struct of `internal/object/asteroid.go:33-43`. -/
structure Asteroid where
  X : ℚ
  Y : ℚ
  VX : ℚ
  VY : ℚ
  Angle : ℚ
  RotationSpeed : ℚ
  Size : ℤ
  Radius : ℚ
  Vertices : List ℚ
  Destroyed : Bool
  SpawnProtection : ℚ
  deriving Repr, DecidableEq

/-- `bounceAsteroids` of `internal/loop/server/collision.go:108-150`: elastic
collision between two asteroids with mass `radius²`; skips separating pairs
(`dvn < 0`), applies the impulse to the velocities and then separates the
overlap proportionally to the opposite mass. -/
def bounceAsteroids (a1 a2 : Asteroid) (dist : ℚ) : Asteroid × Asteroid :=
  let nx := (a2.X - a1.X) / dist
  let ny := (a2.Y - a1.Y) / dist
  let dvx := a1.VX - a2.VX
  let dvy := a1.VY - a2.VY
  let dvn := dvx * nx + dvy * ny
  if dvn < 0 then (a1, a2)
  else
    let m1 := a1.Radius * a1.Radius
    let m2 := a2.Radius * a2.Radius
    let totalMass := m1 + m2
    let impulse := 2 * dvn / totalMass
    let a1' := { a1 with VX := a1.VX - impulse * m2 * nx,
                         VY := a1.VY - impulse * m2 * ny }
    let a2' := { a2 with VX := a2.VX + impulse * m1 * nx,
                         VY := a2.VY + impulse * m1 * ny }
    let overlap := (a1.Radius + a2.Radius) - dist
    if 0 < overlap then
      let sep1 := overlap * m2 / totalMass
      let sep2 := overlap * m1 / totalMass
      ({ a1' with X := a1'.X - nx * sep1, Y := a1'.Y - ny * sep1 },
       { a2' with X := a2'.X + nx * sep2, Y := a2'.Y + ny * sep2 })
    else
      (a1', a2')

/-- Total linear momentum and kinetic energy (mass `radius²`, as in
`bounceAsteroids`) are conserved by `bounceAsteroids a1 a2 dist`: the spec's
elastic-collision symmetry property, stated for the pair of output
asteroids. -/
def BounceConserves (a1 a2 : Asteroid) (dist : ℚ) : Prop :=
  let m1 := a1.Radius * a1.Radius
  let m2 := a2.Radius * a2.Radius
  let b := bounceAsteroids a1 a2 dist
  m1 * b.1.VX + m2 * b.2.VX = m1 * a1.VX + m2 * a2.VX ∧
  m1 * b.1.VY + m2 * b.2.VY = m1 * a1.VY + m2 * a2.VY ∧
  |(m1 * (b.1.VX ^ 2 + b.1.VY ^ 2) + m2 * (b.2.VX ^ 2 + b.2.VY ^ 2)) / 2 -
      (m1 * (a1.VX ^ 2 + a1.VY ^ 2) + m2 * (a2.VX ^ 2 + a2.VY ^ 2)) / 2| ≤
    1 / 1000000000

/-- Random data consumed by `NewAsteroid` (`internal/object/asteroid.go:47-78`).
`dirX`/`dirY` stand for `cos(angle)`/`sin(angle)` of the (possibly random)
velocity direction, `spawnAngle` for the random initial display rotation,
`rotSpeed` for the random rotation speed, and `verts` for the random radial
vertex distances. -/
structure AsteroidRand where
  dirX : ℚ
  dirY : ℚ
  spawnAngle : ℚ
  rotSpeed : ℚ
  verts : List ℚ

/-- `NewAsteroid` of `internal/object/asteroid.go:47-78`, with the calls to
`math/rand` and `math.Cos`/`math.Sin` abstracted into `rd`. -/
def NewAsteroid (x y : ℚ) (size : ℤ) (rd : AsteroidRand) : Asteroid :=
  { X := x
    Y := y
    VX := rd.dirX * asteroidSpeeds size
    VY := rd.dirY * asteroidSpeeds size
    Angle := rd.spawnAngle
    RotationSpeed := rd.rotSpeed
    Size := size
    Radius := asteroidRadii size
    Vertices := rd.verts
    Destroyed := false
    SpawnProtection := 0 }

/-- `NewAsteroidRandom` of `internal/object/asteroid.go:113-127`: an asteroid
at the random world position `(r1·w, r2·h)` (`r1`, `r2` stand for the two
`rand.Float64()` draws) with the given spawn protection. -/
def NewAsteroidRandom (screen : Screen) (size : ℤ) (spawnProtection : ℚ)
    (r1 r2 : ℚ) (rd : AsteroidRand) : Asteroid :=
  { NewAsteroid (r1 * (screen.Width : ℚ)) (r2 * (screen.Height : ℚ)) size rd with
      SpawnProtection := spawnProtection }

/-- `Asteroid.IsProtected` of `internal/object/asteroid.go:130-132`. -/
def Asteroid.IsProtected (a : Asteroid) : Bool :=
  decide (0 < a.SpawnProtection)

/-- `Asteroid.Update` of `internal/object/asteroid.go:135-176`.  When
`Destroyed`, spawns two children of the next smaller tier (when above Small)
plus explosion particles (particles are not modelled: they are not asteroids)
and requests removal; otherwise decrements spawn protection, rotates, moves
and wraps.  Returns `(remove, updated asteroid, queued children)`; the
screen-wrap uses the `math.Mod` variant of `WrapPosition`
(`src/unnamed/part_015`). -/
def Asteroid.update (a : Asteroid) (dt : ℚ) (screen : Screen)
    (rd1 rd2 : AsteroidRand) : Bool × Asteroid × List Asteroid :=
  if a.Destroyed then
    (true, a,
      if AsteroidSmall < a.Size then
        [NewAsteroid a.X a.Y (a.Size - 1) rd1, NewAsteroid a.X a.Y (a.Size - 1) rd2]
      else [])
  else
    let sp :=
      if 0 < a.SpawnProtection then
        (let s := a.SpawnProtection - dt
         if s < 0 then 0 else s)
      else a.SpawnProtection
    let angle := a.Angle + a.RotationSpeed * dt
    let x := a.X + a.VX * dt
    let y := a.Y + a.VY * dt
    let p := screen.wrapPositionMod x y
    (false, { a with SpawnProtection := sp, Angle := angle, X := p.1, Y := p.2 }, [])

/-- The weight-by-size switch shared by `asteroidWeight`
(`internal/loop/server/collision.go:219-234`) and `countActiveAsteroids`
(`internal/object/asteroid_spawner.go:50-65`): `Large = 4`, `Medium = 2`,
`Small = 1`, anything else `0`. -/
def sizeWeight (size : ℤ) : ℤ :=
  if size = AsteroidLarge then 4
  else if size = AsteroidMedium then 2
  else if size = AsteroidSmall then 1
  else 0

/-- `asteroidWeight` of `internal/loop/server/collision.go:219-234`:
destroyed asteroids (and non-asteroid objects, which are not represented
here) weigh `0`. -/
def asteroidWeight (a : Asteroid) : ℤ :=
  if a.Destroyed then 0 else sizeWeight a.Size

/-- Total weight of a list of asteroids under the claim's counting rule
(each asteroid counted by its size tier: `Large = 4, Medium = 2,
Small = 1`). -/
def totalSizeWeight (objs : List Asteroid) : ℤ :=
  (objs.map (fun a => sizeWeight a.Size)).sum

/-- `AsteroidSpawner.countActiveAsteroids` of
`internal/object/asteroid_spawner.go:50-65`: the weighted population of
non-destroyed asteroids. -/
def countActiveAsteroids (objs : List Asteroid) : ℤ :=
  (objs.map asteroidWeight).sum

/-- `SpawnProtectionTime` of `internal/object/asteroid_spawner.go:19`. -/
def SpawnProtectionTime : ℚ := 3

/-- The `AsteroidSpawner` struct of `internal/object/asteroid_spawner.go`. -/
structure AsteroidSpawner where
  target : ℤ

/-- The spawn loop of `AsteroidSpawner.Update`
(`internal/object/asteroid_spawner.go:37-41`): while `target - count >= 12`
(`batchThreshold`), queue one Large asteroid with `SpawnProtection = 3.0`
at a random world position and add `4` (`largeAsteroidValue`) to the local
count.  `rnd i` supplies the random draws of the `i`-th iteration. -/
def spawnLoop (target count : ℤ) (screen : Screen)
    (rnd : ℕ → (ℚ × ℚ) × AsteroidRand) (i : ℕ) : List Asteroid :=
  if 12 ≤ target - count then
    NewAsteroidRandom screen AsteroidLarge SpawnProtectionTime
        (rnd i).1.1 (rnd i).1.2 (rnd i).2 ::
      spawnLoop target (count + 4) screen rnd (i + 1)
  else []
  termination_by (target - count).toNat
  decreasing_by
    rename_i h
    omega

/-- `AsteroidSpawner.Update` of `internal/object/asteroid_spawner.go:22-43`.
Returns `(remove, queued spawns)`; the spawner itself is immutable and never
requests removal. -/
def AsteroidSpawner.update (s : AsteroidSpawner) (objs : List Asteroid)
    (screen : Screen) (rnd : ℕ → (ℚ × ℚ) × AsteroidRand) : Bool × List Asteroid :=
  if s.target = 0 then (false, [])
  else
    let count := countActiveAsteroids objs
    if s.target ≤ count then (false, [])
    else (false, spawnLoop s.target count screen rnd 0)

/-- The `Camera` struct of `internal/object/object.go`. -/
structure Camera where
  X : ℚ
  Y : ℚ

/-- `WorldToScreen` of `src/unnamed/part_015:79-113`: camera-relative screen
positions of a world point, including wrapped copies within `margin = 10` of
the view, capped at 4 entries (`ScreenPositions`).  `dx` is the outer loop,
`dy` the inner, both over `-1, 0, 1`. -/
def worldToScreen (worldX worldY : ℚ) (cam : Camera) (view world : Screen) :
    List (ℚ × ℚ) :=
  let viewW : ℚ := (view.Width : ℚ)
  let viewH : ℚ := (view.Height : ℚ)
  let worldW : ℚ := (world.Width : ℚ)
  let worldH : ℚ := (world.Height : ℚ)
  let camLeft := cam.X - viewW / 2
  let camTop := cam.Y - viewH / 2
  let screenX := worldX - camLeft
  let screenY := worldY - camTop
  let margin : ℚ := 10
  ([-1, 0, 1] : List ℚ).foldl (fun acc dx =>
    ([-1, 0, 1] : List ℚ).foldl (fun acc dy =>
      let sx := screenX + dx * worldW
      let sy := screenY + dy * worldH
      if (-margin ≤ sx ∧ sx ≤ viewW + margin ∧ -margin ≤ sy ∧ sy ≤ viewH + margin)
          ∧ acc.length < 4 then
        acc ++ [(sx, sy)]
      else acc) acc) []

/-- The batching behaviour claimed for `AsteroidSpawner.Update`: never
removes itself; no spawn when the weighted population reaches the target;
every queued asteroid is a Large with `SpawnProtection = 3.0`; and one
asteroid is queued per loop iteration (so the number queued is
`(target - population - 12) / 4 + 1` when `target - population ≥ 12`,
otherwise `0`). -/
def SpawnerBatchingOK (s : AsteroidSpawner) (objs : List Asteroid)
    (screen : Screen) (rnd : ℕ → (ℚ × ℚ) × AsteroidRand) : Prop :=
  (s.update objs screen rnd).1 = false ∧
  (s.target ≤ countActiveAsteroids objs → (s.update objs screen rnd).2 = []) ∧
  (∀ a ∈ (s.update objs screen rnd).2,
    a.Size = AsteroidLarge ∧ a.SpawnProtection = 3) ∧
  (s.update objs screen rnd).2.length =
    (if s.target ≤ countActiveAsteroids objs then 0
     else if s.target - countActiveAsteroids objs < 12 then 0
     else ((s.target - countActiveAsteroids objs - 12).toNat / 4 + 1))

/-- `DistanceSquared` of `internal/physics/physics.go:15-19`. -/
def DistanceSquared (x1 y1 x2 y2 : ℚ) : ℚ :=
  (x2 - x1) * (x2 - x1) + (y2 - y1) * (y2 - y1)

/-- `PointInCircle` of `internal/physics/physics.go:22-24`. -/
def PointInCircle (px py cx cy radius : ℚ) : Bool :=
  decide (DistanceSquared px py cx cy ≤ radius * radius)

/-- `CirclesOverlap` of `internal/physics/physics.go:27-30`. -/
def CirclesOverlap (x1 y1 r1 x2 y2 r2 : ℚ) : Bool :=
  decide (DistanceSquared x1 y1 x2 y2 < (r1 + r2) * (r1 + r2))

/-- `Asteroid.GetRadius` of `internal/object/asteroid.go:233-235`. -/
def Asteroid.GetRadius (a : Asteroid) : ℚ :=
  a.Radius

/-- `Asteroid.IsDestroyed` of `internal/object/asteroid.go:223-225`. -/
def Asteroid.IsDestroyed (a : Asteroid) : Bool :=
  a.Destroyed

/-- `Asteroid.MarkDestroyed` of `internal/object/asteroid.go:218-220`. -/
def Asteroid.MarkDestroyed (a : Asteroid) : Asteroid :=
  { a with Destroyed := true }

/-- The `Projectile` struct of `internal/object/projectile.go` (server
generation, with owner id and destroyed flag). -/
structure Projectile where
  X : ℚ
  Y : ℚ
  VX : ℚ
  VY : ℚ
  Lifetime : ℚ
  OwnerID : ℤ
  destroyed : Bool
  deriving Repr, DecidableEq

/-- `Projectile.MarkDestroyed` of `internal/object/projectile.go`: sets the
flag and zeroes the lifetime. -/
def Projectile.MarkDestroyed (p : Projectile) : Projectile :=
  { p with destroyed := true, Lifetime := 0 }

/-- `Projectile.IsDestroyed` of `internal/object/projectile.go`:
`destroyed || Lifetime <= 0`. -/
def Projectile.IsDestroyed (p : Projectile) : Bool :=
  p.destroyed || decide (p.Lifetime ≤ 0)

/-- `asteroidScore` of `internal/loop/server/collision.go:44-55` with the
score constants of `internal/loop/config/config.go` (`Large = 20`,
`Medium = 50`, `Small = 100`). -/
def asteroidScore (size : ℤ) : ℤ :=
  if size = AsteroidLarge then 20
  else if size = AsteroidMedium then 50
  else if size = AsteroidSmall then 100
  else 0

/-- The inner loop of the projectile–asteroid phase of `checkCollisions`
(`internal/loop/server/state.go:468-489`): one projectile against every
asteroid in order; destroyed or protected asteroids are skipped; on a
point-in-circle hit both are marked destroyed and a `ScoreAdd` event
`(owner, score)` is queued (the projectile's destroyed state is not
re-checked inside the loop, as in the source).  Returns the updated
projectile, the updated asteroid list and the emitted events. -/
def projAsterInner (p : Projectile) :
    List Asteroid → Projectile × List Asteroid × List (ℤ × ℤ)
  | [] => (p, [], [])
  | a :: rest =>
    if a.IsDestroyed || a.IsProtected then
      let r := projAsterInner p rest
      (r.1, a :: r.2.1, r.2.2)
    else if PointInCircle p.X p.Y a.X a.Y a.GetRadius then
      let r := projAsterInner p.MarkDestroyed rest
      (r.1, a.MarkDestroyed :: r.2.1, (p.OwnerID, asteroidScore a.Size) :: r.2.2)
    else
      let r := projAsterInner p rest
      (r.1, a :: r.2.1, r.2.2)

/-- The projectile–asteroid phase of `checkCollisions`
(`internal/loop/server/state.go:468-489`): every projectile in order; a
projectile already destroyed at the start of its outer iteration is
skipped. -/
def projAsteroidPhase :
    List Projectile → List Asteroid → List Projectile × List Asteroid × List (ℤ × ℤ)
  | [], asteroids => ([], asteroids, [])
  | p :: ps, asteroids =>
    if p.IsDestroyed then
      let r := projAsteroidPhase ps asteroids
      (p :: r.1, r.2.1, r.2.2)
    else
      let r1 := projAsterInner p asteroids
      let r2 := projAsteroidPhase ps r1.2.1
      (r1.1 :: r2.1, r2.2.1, r1.2.2 ++ r2.2.2)

/-- The ship–asteroid overlap check of `checkCollisions`
(`internal/loop/server/state.go:520-530`): scan asteroids in order, skipping
destroyed or protected ones, and stop at the first circle overlap with the
ship (`px`, `py` its position, `pr` its radius). -/
def shipAsteroidHit (px py pr : ℚ) (asteroids : List Asteroid) : Bool :=
  asteroids.any fun a =>
    !(a.IsDestroyed || a.IsProtected) && CirclesOverlap px py pr a.X a.Y a.GetRadius

/-- The ship–projectile check of `checkCollisions`
(`internal/loop/server/state.go:507-517`): scan projectiles in order,
skipping destroyed ones and the ship owner's own shots; the first
point-in-circle hit is marked destroyed and the loop breaks.  Returns the
updated projectile list and the hit flag. -/
def shipProjectileCheck (handleID : ℤ) (px py pr : ℚ) :
    List Projectile → List Projectile × Bool
  | [] => ([], false)
  | p :: ps =>
    if p.IsDestroyed || decide (p.OwnerID = handleID) then
      let r := shipProjectileCheck handleID px py pr ps
      (p :: r.1, r.2)
    else if PointInCircle p.X p.Y px py pr then
      (p.MarkDestroyed :: ps, true)
    else
      let r := shipProjectileCheck handleID px py pr ps
      (p :: r.1, r.2)

/-- The observable part of a `ClientHandle`
(`internal/loop/server/state.go:108-115`) for the id-uniqueness claim: the
allocated id, the username, and the identity of the freshly allocated events
channel (`make(chan ClientEvent, 16)`), modelled as an allocation sequence
number. -/
structure ClientHandleModel where
  ID : ℤ
  Username : String
  eventsCh : ℕ
  deriving Repr, DecidableEq

/-- The server state relevant to client registration
(`internal/loop/server/state.go`): the mutex-guarded `nextClientID` counter,
the registered client ids (the `clients` map keys), and the number of events
channels allocated so far (modelling heap allocation freshness). -/
structure RegistryModel where
  nextClientID : ℤ
  clients : List ℤ
  allocs : ℕ
  deriving Repr, DecidableEq

/-- The registration-relevant part of `NewServer`
(`internal/loop/server/state.go:150-168`): `nextClientID` starts at `1`,
no clients, no channels allocated. -/
def newServerRegistry : RegistryModel :=
  { nextClientID := 1, clients := [], allocs := 0 }

/-- `Server.RegisterClient` (`internal/loop/server/state.go:243-257`): take
the current `nextClientID` under the mutex, increment it, and return a handle
with that id and a freshly allocated events channel.  (The insertion into the
`clients` map happens when `processRegistrations` drains the channel; it
never touches the counter.) -/
def registerClient (st : RegistryModel) (username : String) :
    ClientHandleModel × RegistryModel :=
  let id := st.nextClientID
  (⟨id, username, st.allocs⟩,
    { nextClientID := id + 1, clients := st.clients ++ [id], allocs := st.allocs + 1 })

/-- `Server.UnregisterClient` + `processRegistrations`
(`internal/loop/server/state.go:259-262`, `341-363`): removes the client from
the registry and closes its channel; the id counter is untouched. -/
def unregisterClient (st : RegistryModel) (clientID : ℤ) : RegistryModel :=
  { st with clients := st.clients.erase clientID }

/-- A registration-facing server operation. -/
inductive ServerOp where
  | register (username : String)
  | unregister (clientID : ℤ)

/-- Run a sequence of registration operations against the server, collecting
the handles returned by the `RegisterClient` calls in order. -/
def runOps (st : RegistryModel) : List ServerOp → List ClientHandleModel × RegistryModel
  | [] => ([], st)
  | ServerOp.register u :: rest =>
    let r := registerClient st u
    let r2 := runOps r.2 rest
    (r.1 :: r2.1, r2.2)
  | ServerOp.unregister cid :: rest => runOps (unregisterClient st cid) rest

/-- The `Canvas` struct of `internal/draw/canvas.go:58-86` (rendering state
only; the reusable output buffers carry no observable state).  `pixels` is
the flat `[subPixelHeight × termWidth]` bitmap (`index = y·termWidth + x`),
`prevCells` the packed per-cell byte array: low 2 bits = previous cell state,
bit 2 = dirty flag set by `MarkTextDirty`. -/
structure Canvas where
  termWidth : ℕ
  termHeight : ℕ
  subPixelHeight : ℕ
  pixels : List Bool
  prevCells : List ℕ
  forceRedraw : Bool
  offsetCol : ℕ
  offsetRow : ℕ
  deriving Repr, DecidableEq

/-- The half-block composition `switch` of `Canvas.Render`
(`internal/draw/canvas.go:335-345`): `cellEmpty = 0`, `cellUpper = 1`,
`cellLower = 2`, `cellFull = 3` (the `cellState` constants of canvas.go). -/
def cellStateOf (top bottom : Bool) : ℕ :=
  if top && bottom then 3
  else if top then 1
  else if bottom then 2
  else 0

/-- The glyph `switch` of `Canvas.Render` (`internal/draw/canvas.go:364-373`):
`cellFull → '█'`, `cellUpper → '▀'`, `cellLower → '▄'`, `cellEmpty → ' '`. -/
def glyphOf (state : ℕ) : Char :=
  if state = 3 then '█'
  else if state = 1 then '▀'
  else if state = 2 then '▄'
  else ' '

/-- Pixel lookup `c.pixels[y*termWidth+x]` (out-of-range reads, which the Go
code never performs, default to `false`). -/
def Canvas.pixelAt (c : Canvas) (x y : ℕ) : Bool :=
  c.pixels.getD (y * c.termWidth + x) false

/-- The new state of a terminal cell, computed from its two vertical pixels
as in `Canvas.Render` (`internal/draw/canvas.go:325-345`): `top` at row
`2·row`, `bottom` at `2·row + 1` guarded by `bottomY < subPixelHeight`. -/
def Canvas.cellCurrent (c : Canvas) (row col : ℕ) : ℕ :=
  let top := c.pixelAt col (row * 2)
  let bottom := decide (row * 2 + 1 < c.subPixelHeight) && c.pixelAt col (row * 2 + 1)
  cellStateOf top bottom

/-- The packed previous-state byte of a cell,
`c.prevCells[row*termWidth+col]`. -/
def Canvas.cellPrevPacked (c : Canvas) (row col : ℕ) : ℕ :=
  c.prevCells.getD (row * c.termWidth + col) 0

/-- The per-cell emission of `Canvas.Render`
(`internal/draw/canvas.go:347-373`): skip when not forced, not dirty
(`packed & cellDirtyBit`, i.e. bit 2) and unchanged (`packed & cellStateMask`
= `packed % 4`); otherwise emit the 1-based cursor position (offset applied)
and the glyph. -/
def Canvas.renderEmit (c : Canvas) (force : Bool) (row col : ℕ) :
    Option (ℕ × ℕ × Char) :=
  let current := c.cellCurrent row col
  let packed := c.cellPrevPacked row col
  let prev := packed % 4
  let dirty := packed / 4 % 2 = 1
  if ¬force = true ∧ ¬dirty ∧ current = prev then none
  else some (row + 1 + c.offsetRow, col + 1 + c.offsetCol, glyphOf current)

/-- `Canvas.Render` of `internal/draw/canvas.go:314-383`.  The imperative
double loop touches each cell independently (each iteration reads and writes
only its own `prevCells` entry), so it is rendered functionally: the emitted
cursor-position/glyph pairs in row-major order, and the new `prevCells`
array, every entry overwritten with `byte(current)` and finally masked with
`cellStateMask` (`% 4`), clearing all dirty bits.  `forceRedraw` is reset. -/
def Canvas.render (c : Canvas) : List (ℕ × ℕ × Char) × Canvas :=
  let force := c.forceRedraw
  let emits := (List.range c.termHeight).flatMap fun row =>
    (List.range c.termWidth).filterMap fun col => c.renderEmit force row col
  let newPrev := (List.range c.termHeight).flatMap fun row =>
    (List.range c.termWidth).map fun col => c.cellCurrent row col
  (emits, { c with prevCells := newPrev.map (fun b => b % 4), forceRedraw := false })

/-- A tiny concrete canvas (2 columns × 1 row, sub-pixel bitmap
`[true, false / false, true]`, previous states `upper` and `lower`+dirty)
used to exercise `Canvas.render` on a concrete input. -/
def sampleCanvas : Canvas :=
  { termWidth := 2, termHeight := 1, subPixelHeight := 2,
    pixels := [true, false, false, true], prevCells := [1, 6],
    forceRedraw := false, offsetCol := 0, offsetRow := 0 }

/-- The `SpatialGrid` struct of `internal/physics/grid.go:12-24`.  The cell
buckets (`gridCell.items`) are the inner lists, indexed by
`row * cols + col`. -/
structure SpatialGrid where
  cellSize : ℚ
  invCellSize : ℚ
  cols : ℕ
  rows : ℕ
  cells : List (List ℕ)
  deriving Repr, DecidableEq

/-- `NewSpatialGrid` of `internal/physics/grid.go:28-46`: `cols/rows =
max(1, ⌈world / cellSize⌉)`, all cells empty. -/
def NewSpatialGrid (worldW worldH cellSize : ℚ) : SpatialGrid :=
  let cols0 : ℤ := ⌈worldW / cellSize⌉
  let rows0 : ℤ := ⌈worldH / cellSize⌉
  let cols : ℤ := if cols0 < 1 then 1 else cols0
  let rows : ℤ := if rows0 < 1 then 1 else rows0
  { cellSize := cellSize
    invCellSize := 1 / cellSize
    cols := cols.toNat
    rows := rows.toNat
    cells := List.replicate (cols.toNat * rows.toNat) [] }

/-- `posToCell` of `internal/physics/grid.go:97-113`: truncate
`x * invCellSize` to an int (Go's `int(...)` conversion) and clamp into
`[0, cols-1]` / `[0, rows-1]`. -/
def SpatialGrid.posToCell (g : SpatialGrid) (x y : ℚ) : ℕ × ℕ :=
  let col0 : ℤ := truncQ (x * g.invCellSize)
  let col : ℤ :=
    if col0 < 0 then 0 else if (g.cols : ℤ) ≤ col0 then (g.cols : ℤ) - 1 else col0
  let row0 : ℤ := truncQ (y * g.invCellSize)
  let row : ℤ :=
    if row0 < 0 then 0 else if (g.rows : ℤ) ≤ row0 then (g.rows : ℤ) - 1 else row0
  (col.toNat, row.toNat)

/-- `Insert` of `internal/physics/grid.go:56-60`: append the index to the
bucket of the position's cell. -/
def SpatialGrid.insert (g : SpatialGrid) (x y : ℚ) (index : ℕ) : SpatialGrid :=
  let p := g.posToCell x y
  let idx := p.2 * g.cols + p.1
  { g with cells := g.cells.set idx (g.cells.getD idx [] ++ [index]) }

/-- The toroidal wrap applied to a neighbor row/column in `QueryAround`
(`internal/physics/grid.go:68-84`): a negative index wraps to the end, an
overflowing index wraps to the start. -/
def wrapIdx (v : ℤ) (n : ℕ) : ℤ :=
  if v < 0 then v + n else if (n : ℤ) ≤ v then v - n else v

/-- `QueryAround` of `internal/physics/grid.go:65-93`, as the row-major list
of item indices its callback `fn` is invoked on (for an `fn` that never
requests early termination): the buckets of the 3×3 wrapped neighborhood of
the position's cell, `dr` outer and `dc` inner over `-1, 0, 1`. -/
def SpatialGrid.queryAroundList (g : SpatialGrid) (x y : ℚ) : List ℕ :=
  let p := g.posToCell x y
  ([-1, 0, 1] : List ℤ).flatMap fun dr =>
    let r := wrapIdx ((p.2 : ℤ) + dr) g.rows
    ([-1, 0, 1] : List ℤ).flatMap fun dc =>
      let c := wrapIdx ((p.1 : ℤ) + dc) g.cols
      g.cells.getD (r * g.cols + c).toNat []

/-- The bucket of cell `(col, row)` (Go: `g.cells[row*g.cols+col].items`). -/
def SpatialGrid.cellItems (g : SpatialGrid) (cell : ℕ × ℕ) : List ℕ :=
  g.cells.getD (cell.2 * g.cols + cell.1) []

/-- The insertion loop of `populateGrids`
(`internal/loop/server/collision.go:33-35`):
`for i, a := range asteroids { grid.Insert(a.X, a.Y, i) }`, with `i` starting
at the given index. -/
def populateGridAux (g : SpatialGrid) (i : ℕ) : List (ℚ × ℚ) → SpatialGrid
  | [] => g
  | p :: rest => populateGridAux (g.insert p.1 p.2 i) (i + 1) rest

/-- Insert every position (with its index) into the grid, as `populateGrids`
does (`internal/loop/server/collision.go:25-41`). -/
def populateGrid (g : SpatialGrid) (ps : List (ℚ × ℚ)) : SpatialGrid :=
  populateGridAux g 0 ps

/-- Squared toroidal distance on the `[0,W) × [0,H)` torus — the metric in
which claim C1 measures circle overlap (the spec's "distance, measured on
the toroidal world"; the Go sources themselves use only the plain Euclidean
`physics.Distance`). -/
def torusDistSq (x1 y1 x2 y2 W H : ℚ) : ℚ :=
  let dx := |x1 - x2|
  let dy := |y1 - y2|
  let dxw := min dx (W - dx)
  let dyw := min dy (H - dy)
  dxw * dxw + dyw * dyw

/-! ### Theorems -/

theorem wrapUp_nonneg (w : ℚ) (hw : 0 < w) (x : ℚ) : 0 ≤ wrapUp w hw x := by
  induction x using wrapUp.induct w hw with
  | case1 x hx ih =>
    rw [wrapUp, if_pos hx]
    exact ih
  | case2 x hx =>
    rw [wrapUp, if_neg hx]
    exact le_of_not_lt hx

theorem wrapUp_of_nonneg (w : ℚ) (hw : 0 < w) (x : ℚ) (hx : 0 ≤ x) :
    wrapUp w hw x = x := by
  rw [wrapUp, if_neg (not_lt.mpr hx)]

theorem wrapDown_le (w : ℚ) (hw : 0 < w) (x : ℚ) : wrapDown w hw x ≤ w := by
  induction x using wrapDown.induct w hw with
  | case1 x hx ih =>
    rw [wrapDown, if_pos hx]
    exact ih
  | case2 x hx =>
    rw [wrapDown, if_neg hx]
    exact le_of_not_lt hx

theorem wrapDown_nonneg (w : ℚ) (hw : 0 < w) (x : ℚ) :
    0 ≤ x → 0 ≤ wrapDown w hw x := by
  induction x using wrapDown.induct w hw with
  | case1 x hx' ih =>
    intro _
    rw [wrapDown, if_pos hx']
    exact ih (by linarith)
  | case2 x hx' =>
    intro h
    rw [wrapDown, if_neg hx']
    exact h

theorem wrapDown_of_le (w : ℚ) (hw : 0 < w) (x : ℚ) (hx : x ≤ w) :
    wrapDown w hw x = x := by
  rw [wrapDown, if_neg (not_lt.mpr hx)]

theorem goMod_bounds_of_nonneg (x w : ℚ) (hw : 0 < w) (hx : 0 ≤ x) :
    0 ≤ goMod x w ∧ goMod x w < w := by
  have hq : 0 ≤ x / w := div_nonneg hx hw.le
  have hxw : x / w * w = x := div_mul_cancel₀ x (ne_of_gt hw)
  have h1 : (⌊x / w⌋ : ℚ) ≤ x / w := Int.floor_le _
  have h2 : x / w < (⌊x / w⌋ : ℚ) + 1 := Int.lt_floor_add_one _
  have e1 : (⌊x / w⌋ : ℚ) * w ≤ x := by
    have := mul_le_mul_of_nonneg_right h1 hw.le
    rwa [hxw] at this
  have e2 : x < ((⌊x / w⌋ : ℚ) + 1) * w := by
    have := mul_lt_mul_of_pos_right h2 hw
    rwa [hxw] at this
  rw [goMod, truncQ, if_neg (not_lt.mpr hq)]
  constructor <;> nlinarith

theorem goMod_bounds_of_neg (x w : ℚ) (hw : 0 < w) (hx : x < 0) :
    -w < goMod x w ∧ goMod x w ≤ 0 := by
  have hq : x / w < 0 := div_neg_of_neg_of_pos hx hw
  have hxw : -x / w * w = -x := div_mul_cancel₀ (-x) (ne_of_gt hw)
  have h1 : (⌊-x / w⌋ : ℚ) ≤ -x / w := Int.floor_le _
  have h2 : -x / w < (⌊-x / w⌋ : ℚ) + 1 := Int.lt_floor_add_one _
  have e1 : (⌊-x / w⌋ : ℚ) * w ≤ -x := by
    have := mul_le_mul_of_nonneg_right h1 hw.le
    rwa [hxw] at this
  have e2 : -x < ((⌊-x / w⌋ : ℚ) + 1) * w := by
    have := mul_lt_mul_of_pos_right h2 hw
    rwa [hxw] at this
  rw [goMod, truncQ, if_pos hq]
  have hneg : -(x / w) = -x / w := by ring
  rw [hneg]
  constructor <;> push_cast <;> nlinarith

theorem wrapModAxis_bounds (x w : ℚ) (hw : 0 < w) :
    0 ≤ wrapModAxis x w ∧ wrapModAxis x w < w := by
  rw [wrapModAxis, if_pos hw]
  rcases le_or_lt 0 x with hx | hx
  · obtain ⟨h0, h1⟩ := goMod_bounds_of_nonneg x w hw hx
    rw [if_neg (not_lt.mpr h0)]
    exact ⟨h0, h1⟩
  · obtain ⟨h0, h1⟩ := goMod_bounds_of_neg x w hw hx
    by_cases hm : goMod x w < 0
    · rw [if_pos hm]
      constructor <;> linarith
    · rw [if_neg hm]
      exact ⟨le_of_not_lt hm, by linarith⟩

theorem wrapModAxis_of_mem (x w : ℚ) (hw : 0 < w) (h0 : 0 ≤ x) (h1 : x < w) :
    wrapModAxis x w = x := by
  have hfloor : ⌊x / w⌋ = 0 := by
    rw [Int.floor_eq_zero_iff]
    constructor
    · exact div_nonneg h0 hw.le
    · exact (div_lt_one hw).mpr h1
  have hmod : goMod x w = x := by
    rw [goMod, truncQ, if_neg (not_lt.mpr (div_nonneg h0 hw.le)), hfloor]
    push_cast
    ring
  rw [wrapModAxis, if_pos hw]
  simp only [hmod, if_neg (not_lt.mpr h0)]

theorem wrapLoopAxis_bounds (x w : ℚ) (hw : 0 < w) :
    0 ≤ wrapLoopAxis x w ∧ wrapLoopAxis x w ≤ w := by
  rw [wrapLoopAxis, dif_pos hw]
  exact ⟨wrapDown_nonneg w hw _ (wrapUp_nonneg w hw x), wrapDown_le w hw _⟩

theorem wrapLoopAxis_of_mem (x w : ℚ) (hw : 0 < w) (h0 : 0 ≤ x) (h1 : x ≤ w) :
    wrapLoopAxis x w = x := by
  rw [wrapLoopAxis, dif_pos hw, wrapUp_of_nonneg w hw x h0, wrapDown_of_le w hw x h1]

/-- Claim C2, counterexample: for the loop variant of `WrapPosition`
(`internal/object/object.go:51-71`) with `W = H = 10`, the input `x = 10`
is left at `10`, which does not lie in `[0, 10)` as the claim requires. -/
theorem C2_wrap_counterexample :
    ((Screen.mk 10 10 5 5).wrapPositionLoop 10 0).1 = 10 ∧
    ¬ ((Screen.mk 10 10 5 5).wrapPositionLoop 10 0).1 < 10 := by
  have h : ((Screen.mk 10 10 5 5).wrapPositionLoop 10 0).1 = 10 := by
    show wrapLoopAxis 10 (((10 : ℤ) : ℚ)) = 10
    have hw : (0 : ℚ) < ((10 : ℤ) : ℚ) := by norm_num
    rw [wrapLoopAxis, dif_pos hw, wrapUp_of_nonneg _ hw _ (by norm_num),
      wrapDown_of_le _ hw _ (by norm_num)]
  refine ⟨h, ?_⟩
  rw [h]
  norm_num

/-- Claim C2 (amended): for positive `W`, `H` and all finite `(x, y)`, both
variants of `Screen.WrapPosition` are idempotent; the `math.Mod` variant's
once-wrapped result lies in `[0,W) × [0,H)`, while the loop variant's result
lies only in the closed box `[0,W] × [0,H]` (the value `W` itself is a fixed
point of the loop variant, see the counterexample). -/
theorem C2_wrap_idempotent (s : Screen) (hw : 0 < s.Width) (hh : 0 < s.Height)
    (x y : ℚ) :
    (s.wrapPositionLoop (s.wrapPositionLoop x y).1 (s.wrapPositionLoop x y).2 =
        s.wrapPositionLoop x y ∧
      0 ≤ (s.wrapPositionLoop x y).1 ∧ (s.wrapPositionLoop x y).1 ≤ (s.Width : ℚ) ∧
      0 ≤ (s.wrapPositionLoop x y).2 ∧ (s.wrapPositionLoop x y).2 ≤ (s.Height : ℚ)) ∧
    (s.wrapPositionMod (s.wrapPositionMod x y).1 (s.wrapPositionMod x y).2 =
        s.wrapPositionMod x y ∧
      0 ≤ (s.wrapPositionMod x y).1 ∧ (s.wrapPositionMod x y).1 < (s.Width : ℚ) ∧
      0 ≤ (s.wrapPositionMod x y).2 ∧ (s.wrapPositionMod x y).2 < (s.Height : ℚ)) := by
  have hwq : (0 : ℚ) < (s.Width : ℚ) := by exact_mod_cast hw
  have hhq : (0 : ℚ) < (s.Height : ℚ) := by exact_mod_cast hh
  obtain ⟨lx0, lx1⟩ := wrapLoopAxis_bounds x (s.Width : ℚ) hwq
  obtain ⟨ly0, ly1⟩ := wrapLoopAxis_bounds y (s.Height : ℚ) hhq
  obtain ⟨mx0, mx1⟩ := wrapModAxis_bounds x (s.Width : ℚ) hwq
  obtain ⟨my0, my1⟩ := wrapModAxis_bounds y (s.Height : ℚ) hhq
  refine ⟨⟨?_, lx0, lx1, ly0, ly1⟩, ⟨?_, mx0, mx1, my0, my1⟩⟩
  · show (wrapLoopAxis (wrapLoopAxis x _) _, wrapLoopAxis (wrapLoopAxis y _) _) = _
    rw [wrapLoopAxis_of_mem _ _ hwq lx0 lx1, wrapLoopAxis_of_mem _ _ hhq ly0 ly1]
    rfl
  · show (wrapModAxis (wrapModAxis x _) _, wrapModAxis (wrapModAxis y _) _) = _
    rw [wrapModAxis_of_mem _ _ hwq mx0 mx1, wrapModAxis_of_mem _ _ hhq my0 my1]
    rfl

/-- Witness for `C2_wrap_idempotent` at `s = ⟨10, 8, 5, 4⟩`, `x = -3`,
`y = 25`. -/
theorem elastic_core (vx1 vy1 vx2 vy2 nx ny m1 m2 j : ℚ)
    (hn : nx ^ 2 + ny ^ 2 = 1)
    (hj : j * (m1 + m2) = 2 * ((vx1 - vx2) * nx + (vy1 - vy2) * ny)) :
    m1 * ((vx1 - j * m2 * nx) ^ 2 + (vy1 - j * m2 * ny) ^ 2) +
      m2 * ((vx2 + j * m1 * nx) ^ 2 + (vy2 + j * m1 * ny) ^ 2) =
    m1 * (vx1 ^ 2 + vy1 ^ 2) + m2 * (vx2 ^ 2 + vy2 ^ 2) := by
  linear_combination (j ^ 2 * m1 * m2 * (m1 + m2)) * hn + (j * m1 * m2) * hj

/-- Claim C4: for two asteroids at distinct positions (`dist > 0`, `dist` the
Euclidean distance) that `bounceAsteroids` resolves (relative normal velocity
not separating), with mass `radius²`, total linear momentum is preserved
componentwise and total kinetic energy is preserved within `1e-9` (indeed
exactly, in exact arithmetic). -/
theorem C4_bounce_conserves (a1 a2 : Asteroid) (dist : ℚ)
    (hdist : 0 < dist)
    (hd2 : dist * dist =
      (a2.X - a1.X) * (a2.X - a1.X) + (a2.Y - a1.Y) * (a2.Y - a1.Y))
    (hr1 : 0 < a1.Radius) (hr2 : 0 < a2.Radius)
    (hdvn : 0 ≤ (a1.VX - a2.VX) * ((a2.X - a1.X) / dist) +
      (a1.VY - a2.VY) * ((a2.Y - a1.Y) / dist)) :
    BounceConserves a1 a2 dist := by
  have hM : a1.Radius * a1.Radius + a2.Radius * a2.Radius ≠ 0 := by positivity
  have hdne : dist ≠ 0 := ne_of_gt hdist
  have hn : ((a2.X - a1.X) / dist) ^ 2 + ((a2.Y - a1.Y) / dist) ^ 2 = 1 := by
    rw [div_pow, div_pow, div_add_div_same, div_eq_one_iff_eq (by positivity)]
    linear_combination -hd2
  have hj : 2 * ((a1.VX - a2.VX) * ((a2.X - a1.X) / dist) +
        (a1.VY - a2.VY) * ((a2.Y - a1.Y) / dist)) /
        (a1.Radius * a1.Radius + a2.Radius * a2.Radius) *
        (a1.Radius * a1.Radius + a2.Radius * a2.Radius) =
      2 * ((a1.VX - a2.VX) * ((a2.X - a1.X) / dist) +
        (a1.VY - a2.VY) * ((a2.Y - a1.Y) / dist)) :=
    div_mul_cancel₀ _ hM
  have hE := elastic_core a1.VX a1.VY a2.VX a2.VY
    ((a2.X - a1.X) / dist) ((a2.Y - a1.Y) / dist)
    (a1.Radius * a1.Radius) (a2.Radius * a2.Radius)
    (2 * ((a1.VX - a2.VX) * ((a2.X - a1.X) / dist) +
      (a1.VY - a2.VY) * ((a2.Y - a1.Y) / dist)) /
      (a1.Radius * a1.Radius + a2.Radius * a2.Radius)) hn hj
  simp only [BounceConserves, bounceAsteroids]
  rw [if_neg (not_lt.mpr hdvn)]
  split
  · refine ⟨by ring, by ring, ?_⟩
    rw [hE, sub_self, abs_zero]
    norm_num
  · refine ⟨by ring, by ring, ?_⟩
    rw [hE, sub_self, abs_zero]
    norm_num

/-- Witness for `C4_bounce_conserves`: asteroids at `(0,0)` and `(3,4)` with
radii `1` and `2`, velocities `(1,0)` and `(0,0)`, distance `5`. -/
theorem C4_bounce_conserves_witness :
    (0 : ℚ) < 5 ∧
    BounceConserves (Asteroid.mk 0 0 1 0 0 0 3 1 [] false 0)
      (Asteroid.mk 3 4 0 0 0 0 3 2 [] false 0) 5 :=
  ⟨by norm_num,
    C4_bounce_conserves (Asteroid.mk 0 0 1 0 0 0 3 1 [] false 0)
      (Asteroid.mk 3 4 0 0 0 0 3 2 [] false 0) 5
      (by norm_num) (by norm_num) (by norm_num) (by norm_num) (by norm_num)⟩

theorem C2_wrap_idempotent_witness :
    ((0 : ℤ) < 10 ∧ (0 : ℤ) < 8) ∧
    ((Screen.mk 10 8 5 4).wrapPositionLoop
        ((Screen.mk 10 8 5 4).wrapPositionLoop (-3) 25).1
        ((Screen.mk 10 8 5 4).wrapPositionLoop (-3) 25).2 =
      (Screen.mk 10 8 5 4).wrapPositionLoop (-3) 25 ∧
     0 ≤ ((Screen.mk 10 8 5 4).wrapPositionLoop (-3) 25).1 ∧
     ((Screen.mk 10 8 5 4).wrapPositionLoop (-3) 25).1 ≤ (((10 : ℤ) : ℚ)) ∧
     0 ≤ ((Screen.mk 10 8 5 4).wrapPositionLoop (-3) 25).2 ∧
     ((Screen.mk 10 8 5 4).wrapPositionLoop (-3) 25).2 ≤ (((8 : ℤ) : ℚ))) ∧
    ((Screen.mk 10 8 5 4).wrapPositionMod
        ((Screen.mk 10 8 5 4).wrapPositionMod (-3) 25).1
        ((Screen.mk 10 8 5 4).wrapPositionMod (-3) 25).2 =
      (Screen.mk 10 8 5 4).wrapPositionMod (-3) 25 ∧
     0 ≤ ((Screen.mk 10 8 5 4).wrapPositionMod (-3) 25).1 ∧
     ((Screen.mk 10 8 5 4).wrapPositionMod (-3) 25).1 < (((10 : ℤ) : ℚ)) ∧
     0 ≤ ((Screen.mk 10 8 5 4).wrapPositionMod (-3) 25).2 ∧
     ((Screen.mk 10 8 5 4).wrapPositionMod (-3) 25).2 < (((8 : ℤ) : ℚ))) :=
  ⟨⟨by norm_num, by norm_num⟩,
    (C2_wrap_idempotent (Screen.mk 10 8 5 4) (by norm_num) (by norm_num) (-3) 25).1,
    (C2_wrap_idempotent (Screen.mk 10 8 5 4) (by norm_num) (by norm_num) (-3) 25).2⟩

/-- Claim C3: counting asteroids by size tier (`Large = 4, Medium = 2,
Small = 1`), the destruction step — `Asteroid.Update` on a destroyed Large
returning `remove = true` and queueing two Medium fragments, which the server
then adds — leaves the world's total weighted asteroid count unchanged
(4 removed, 2 + 2 added). -/
theorem C3_weight_accounting (objs : List Asteroid) (a : Asteroid) (dt : ℚ)
    (screen : Screen) (rd1 rd2 : AsteroidRand)
    (ha : a ∈ objs) (hsize : a.Size = AsteroidLarge) (hdes : a.Destroyed = true) :
    (a.update dt screen rd1 rd2).1 = true ∧
    ((a.update dt screen rd1 rd2).2.2).map (fun c => c.Size) =
      [AsteroidMedium, AsteroidMedium] ∧
    totalSizeWeight (objs.erase a ++ (a.update dt screen rd1 rd2).2.2) =
      totalSizeWeight objs := by
  have hupd : a.update dt screen rd1 rd2 =
      (true, a, [NewAsteroid a.X a.Y (a.Size - 1) rd1,
                 NewAsteroid a.X a.Y (a.Size - 1) rd2]) := by
    rw [Asteroid.update]
    simp only [hdes, if_true]
    have hlt : AsteroidSmall < a.Size := by
      rw [hsize]
      decide
    simp [hlt]
  refine ⟨by rw [hupd], ?_, ?_⟩
  · rw [hupd, hsize]
    simp [NewAsteroid, AsteroidMedium, AsteroidLarge]
  · rw [hupd]
    have hperm : objs.Perm (a :: objs.erase a) := List.perm_cons_erase ha
    have hsum : totalSizeWeight objs = sizeWeight a.Size +
        totalSizeWeight (objs.erase a) := by
      unfold totalSizeWeight
      rw [(hperm.map (fun c => sizeWeight c.Size)).sum_eq]
      simp
    rw [hsum, totalSizeWeight, totalSizeWeight, List.map_append, List.sum_append]
    have hw : sizeWeight a.Size = 4 := by rw [hsize]; decide
    have hw2 : sizeWeight (a.Size - 1) = 2 := by rw [hsize]; decide
    simp [NewAsteroid, hw, hw2]
    omega

/-- Witness for `C3_weight_accounting`: a single destroyed Large asteroid in
the world, split into two Mediums. -/
theorem C3_weight_accounting_witness :
    Asteroid.mk 0 0 0 0 0 0 3 5 [] true 0 ∈
      [Asteroid.mk 0 0 0 0 0 0 3 5 [] true 0] ∧
    totalSizeWeight
      ([Asteroid.mk 0 0 0 0 0 0 3 5 [] true 0].erase
          (Asteroid.mk 0 0 0 0 0 0 3 5 [] true 0) ++
        ((Asteroid.mk 0 0 0 0 0 0 3 5 [] true 0).update 1
            (Screen.mk 400 300 200 150)
            (AsteroidRand.mk 1 0 0 0 []) (AsteroidRand.mk 0 1 0 0 [])).2.2) =
      totalSizeWeight [Asteroid.mk 0 0 0 0 0 0 3 5 [] true 0] :=
  ⟨List.mem_singleton.mpr rfl,
    (C3_weight_accounting [Asteroid.mk 0 0 0 0 0 0 3 5 [] true 0]
        (Asteroid.mk 0 0 0 0 0 0 3 5 [] true 0) 1 (Screen.mk 400 300 200 150)
        (AsteroidRand.mk 1 0 0 0 []) (AsteroidRand.mk 0 1 0 0 [])
        (List.mem_singleton.mpr rfl) rfl rfl).2.2⟩

theorem spawnLoop_props (target count : ℤ) (screen : Screen)
    (rnd : ℕ → (ℚ × ℚ) × AsteroidRand) (i : ℕ) :
    (∀ a ∈ spawnLoop target count screen rnd i,
      a.Size = AsteroidLarge ∧ a.SpawnProtection = 3) ∧
    (spawnLoop target count screen rnd i).length =
      (if target - count < 12 then 0 else ((target - count - 12).toNat / 4 + 1)) := by
  induction count, screen, rnd, i using spawnLoop.induct target with
  | case1 count screen rnd i h ih =>
    rw [spawnLoop, if_pos h]
    obtain ⟨ih1, ih2⟩ := ih
    constructor
    · intro a ha
      rcases List.mem_cons.mp ha with rfl | ha'
      · exact ⟨rfl, rfl⟩
      · exact ih1 a ha'
    · rw [List.length_cons, ih2]
      split_ifs <;> omega
  | case2 count screen rnd i h =>
    rw [spawnLoop, if_neg h]
    constructor
    · intro a ha
      simp at ha
    · simp only [List.length_nil]
      split_ifs <;> omega

/-- Claim C8: with `target > 0`, `AsteroidSpawner.Update` is a no-op when
the weighted population (4 per Large, 2 per Medium, 1 per Small, destroyed
excluded) is at least the target; otherwise, while `target - population ≥ 12`
it queues exactly one Large asteroid with `SpawnProtection = 3.0 s` per
iteration, adding 4 to the local population each time. -/
theorem C8_spawner_batching (s : AsteroidSpawner) (objs : List Asteroid)
    (screen : Screen) (rnd : ℕ → (ℚ × ℚ) × AsteroidRand)
    (htarget : 0 < s.target) :
    SpawnerBatchingOK s objs screen rnd := by
  have hne : s.target ≠ 0 := ne_of_gt htarget
  by_cases hc : s.target ≤ countActiveAsteroids objs
  · have hupd : s.update objs screen rnd = (false, []) := by
      simp only [AsteroidSpawner.update, if_neg hne, if_pos hc]
    unfold SpawnerBatchingOK
    rw [hupd]
    refine ⟨rfl, fun _ => rfl, ?_, ?_⟩
    · intro a ha
      simp at ha
    · rw [if_pos hc]
      rfl
  · have hupd : s.update objs screen rnd =
        (false, spawnLoop s.target (countActiveAsteroids objs) screen rnd 0) := by
      simp only [AsteroidSpawner.update, if_neg hne, if_neg hc]
    obtain ⟨h1, h2⟩ := spawnLoop_props s.target (countActiveAsteroids objs) screen rnd 0
    unfold SpawnerBatchingOK
    rw [hupd]
    refine ⟨rfl, fun h => absurd h hc, h1, ?_⟩
    rw [if_neg hc]
    exact h2

/-- Witness for `C8_spawner_batching`: target 20, empty world — three Large
asteroids are queued (20, 16, 12 ≥ 12; then 8 < 12). -/
theorem C8_spawner_batching_witness :
    (0 : ℤ) < 20 ∧
    SpawnerBatchingOK (AsteroidSpawner.mk 20) [] (Screen.mk 400 300 200 150)
      (fun _ => ((0, 0), AsteroidRand.mk 1 0 0 0 [])) :=
  ⟨by norm_num,
    C8_spawner_batching (AsteroidSpawner.mk 20) [] (Screen.mk 400 300 200 150)
      (fun _ => ((0, 0), AsteroidRand.mk 1 0 0 0 [])) (by norm_num)⟩

/-- Claim C5, counterexample: with the ship at world `X = 2`, the camera at
`(0, 0)`, a `10 × 10` view and a `100 × 100` world, `WorldToScreen` returns
only `(7, 5)` (the camera denotes the view *center*, so the screen X is
`2 − (0 − 10/2) = 7`), never a position with screen `X = 2`. -/
theorem C5_wrap_rendering_counterexample :
    worldToScreen 2 0 (Camera.mk 0 0) (Screen.mk 10 10 5 5)
        (Screen.mk 100 100 50 50) = [(7, 5)] ∧
    ∀ p ∈ worldToScreen 2 0 (Camera.mk 0 0) (Screen.mk 10 10 5 5)
        (Screen.mk 100 100 50 50), p.1 ≠ 2 := by
  have hres : worldToScreen 2 0 (Camera.mk 0 0) (Screen.mk 10 10 5 5)
      (Screen.mk 100 100 50 50) = [(7, 5)] := by
    simp only [worldToScreen, List.foldl_cons, List.foldl_nil]
    norm_num
  refine ⟨hres, ?_⟩
  rw [hres]
  intro p hp
  rw [List.mem_singleton.mp hp]
  norm_num

/-- Claim C5 (amended): with the ship at world `X = 2`, camera `(0,0)`, view
width 10 and world width `W` (height 100), `WorldToScreen` yields a position
with screen `X = 7 = 2 − (camX − viewW/2)`, and additionally the wrapped copy
with screen `X = 7 + W` exactly when `7 + W ≤ viewW + 10` (margin 10). -/
theorem C5_wrap_rendering_amended (W cx cy : ℤ) (hW : 0 < W) :
    ((7 : ℚ), (5 : ℚ)) ∈ worldToScreen 2 0 (Camera.mk 0 0)
        (Screen.mk 10 10 5 5) (Screen.mk W 100 cx cy) ∧
    ((7 + (W : ℚ), (5 : ℚ)) ∈ worldToScreen 2 0 (Camera.mk 0 0)
        (Screen.mk 10 10 5 5) (Screen.mk W 100 cx cy) ↔
      7 + (W : ℚ) ≤ 10 + 10) := by
  have hWq : (0 : ℚ) < (W : ℚ) := by exact_mod_cast hW
  simp only [worldToScreen, List.foldl_cons, List.foldl_nil]
  norm_num
  have hA : (7 : ℚ) ≤ 20 + (W : ℚ) := by linarith
  have hB : (-10 : ℚ) ≤ 7 + (W : ℚ) := by linarith
  have hne1 : (7 : ℚ) + (W : ℚ) ≠ 7 := by
    intro h
    linarith
  have hne2 : (7 : ℚ) + (W : ℚ) ≠ 7 + -(W : ℚ) := by
    intro h
    linarith
  by_cases h1 : (W : ℚ) ≤ 17 <;> by_cases h2 : 7 + (W : ℚ) ≤ 20
  · simp [h1, h2, hA, hB]
  · simp [h1, h2, hA, hB, hne1, hne2]
  · exfalso
    linarith
  · simp [h1, h2, hA, hB, hne1, hne2]

/-- Witness for `C5_wrap_rendering_amended` at `W = 10`: the wrapped copy at
screen `X = 17` is emitted since `17 ≤ 20`. -/
theorem C5_wrap_rendering_amended_witness :
    (0 : ℤ) < 10 ∧
    (((7 : ℚ), (5 : ℚ)) ∈ worldToScreen 2 0 (Camera.mk 0 0)
        (Screen.mk 10 10 5 5) (Screen.mk 10 100 5 50) ∧
      ((7 + ((10 : ℤ) : ℚ), (5 : ℚ)) ∈ worldToScreen 2 0 (Camera.mk 0 0)
          (Screen.mk 10 10 5 5) (Screen.mk 10 100 5 50) ↔
        7 + ((10 : ℤ) : ℚ) ≤ 10 + 10)) :=
  ⟨by norm_num, C5_wrap_rendering_amended 10 5 50 (by norm_num)⟩

theorem projAsterInner_protected (asteroids : List Asteroid) :
    ∀ (p : Projectile) (k : ℕ) (a : Asteroid), asteroids.get? k = some a →
      0 < a.SpawnProtection → (projAsterInner p asteroids).2.1.get? k = some a := by
  induction asteroids with
  | nil =>
    intro p k a hk
    simp at hk
  | cons b rest ih =>
    intro p k a hk hp
    by_cases hb : (b.IsDestroyed || b.IsProtected) = true
    · simp only [projAsterInner, hb, if_true]
      cases k with
      | zero =>
        simpa using hk
      | succ k =>
        simp only [List.get?_cons_succ] at hk ⊢
        exact ih p k a hk hp
    · by_cases hhit : PointInCircle p.X p.Y b.X b.Y b.GetRadius = true
      · cases k with
        | zero =>
          exfalso
          have hab : b = a := by simpa using hk
          have : b.IsProtected = true := by
            simp only [Asteroid.IsProtected, decide_eq_true_eq]
            rw [hab]
            exact hp
          simp [this] at hb
        | succ k =>
          simp only [projAsterInner, hb, hhit, if_true, if_false,
            Bool.false_eq_true, List.get?_cons_succ] at hk ⊢
          exact ih p.MarkDestroyed k a hk hp
      · simp only [projAsterInner, hb, hhit, if_false, Bool.false_eq_true] at hk ⊢
        cases k with
        | zero =>
          simpa using hk
        | succ k =>
          simp only [List.get?_cons_succ] at hk ⊢
          exact ih p k a hk hp

theorem projAsteroidPhase_protected (ps : List Projectile) :
    ∀ (asteroids : List Asteroid) (k : ℕ) (a : Asteroid), asteroids.get? k = some a →
      0 < a.SpawnProtection →
      (projAsteroidPhase ps asteroids).2.1.get? k = some a := by
  induction ps with
  | nil =>
    intro asteroids k a hk _
    simpa only [projAsteroidPhase] using hk
  | cons p ps ih =>
    intro asteroids k a hk hp
    by_cases hd : p.IsDestroyed = true
    · simp only [projAsteroidPhase, hd, if_true]
      exact ih asteroids k a hk hp
    · simp only [projAsteroidPhase, hd, if_false, Bool.false_eq_true]
      exact ih _ k a (projAsterInner_protected asteroids p k a hk hp) hp

/-- Claim C6: in the collision phase, an asteroid with `SpawnProtection > 0`
is never marked destroyed by a projectile hit (its list entry is unchanged by
the projectile–asteroid phase), and a ship–asteroid hit can only be caused by
an undestroyed, unprotected asteroid that actually overlaps the ship. -/
theorem C6_spawn_protection (ps : List Projectile) (asteroids : List Asteroid)
    (px py pr : ℚ) :
    (∀ (k : ℕ) (a : Asteroid), asteroids.get? k = some a →
      0 < a.SpawnProtection →
      (projAsteroidPhase ps asteroids).2.1.get? k = some a) ∧
    (shipAsteroidHit px py pr asteroids = true →
      ∃ a ∈ asteroids, a.Destroyed = false ∧ ¬ 0 < a.SpawnProtection ∧
        CirclesOverlap px py pr a.X a.Y a.GetRadius = true) := by
  constructor
  · intro k a hk hp
    exact projAsteroidPhase_protected ps asteroids k a hk hp
  · intro h
    rw [shipAsteroidHit, List.any_eq_true] at h
    obtain ⟨a, ha, hcond⟩ := h
    rw [Bool.and_eq_true, Bool.not_eq_true', Bool.or_eq_false_iff] at hcond
    obtain ⟨⟨hd, hpr⟩, hov⟩ := hcond
    refine ⟨a, ha, ?_, ?_, hov⟩
    · simpa [Asteroid.IsDestroyed] using hd
    · simpa [Asteroid.IsProtected] using hpr

/-- Witness for `C6_spawn_protection`: a protected asteroid overlapped by a
live projectile stays untouched by the projectile–asteroid phase. -/
theorem C6_spawn_protection_witness :
    [Asteroid.mk 0 0 0 0 0 0 3 5 [] false 1].get? 0 =
        some (Asteroid.mk 0 0 0 0 0 0 3 5 [] false 1) ∧
    (0 : ℚ) < 1 ∧
    (projAsteroidPhase [Projectile.mk 0 0 0 0 1 7 false]
        [Asteroid.mk 0 0 0 0 0 0 3 5 [] false 1]).2.1.get? 0 =
      some (Asteroid.mk 0 0 0 0 0 0 3 5 [] false 1) :=
  ⟨rfl, by norm_num,
    (C6_spawn_protection [Projectile.mk 0 0 0 0 1 7 false]
        [Asteroid.mk 0 0 0 0 0 0 3 5 [] false 1] 0 0 1).1 0
      (Asteroid.mk 0 0 0 0 0 0 3 5 [] false 1) rfl (by norm_num)⟩

theorem shipProjectileCheck_own (handleID : ℤ) (px py pr : ℚ)
    (ps : List Projectile) :
    ∀ (k : ℕ) (p : Projectile), ps.get? k = some p → p.OwnerID = handleID →
      (shipProjectileCheck handleID px py pr ps).1.get? k = some p := by
  induction ps with
  | nil =>
    intro k p hk
    simp at hk
  | cons q ps ih =>
    intro k p hk hown
    by_cases hq : (q.IsDestroyed || decide (q.OwnerID = handleID)) = true
    · simp only [shipProjectileCheck, hq, if_true]
      cases k with
      | zero => simpa using hk
      | succ k =>
        simp only [List.get?_cons_succ] at hk ⊢
        exact ih k p hk hown
    · by_cases hhit : PointInCircle q.X q.Y px py pr = true
      · cases k with
        | zero =>
          exfalso
          have hqp : q = p := by simpa using hk
          rw [Bool.or_eq_true, decide_eq_true_eq] at hq
          push_neg at hq
          exact hq.2 (hqp ▸ hown)
        | succ k =>
          simp only [shipProjectileCheck, hq, hhit, if_true, if_false,
            Bool.false_eq_true, List.get?_cons_succ] at hk ⊢
          exact hk
      · simp only [shipProjectileCheck, hq, hhit, if_false, Bool.false_eq_true]
        cases k with
        | zero => simpa using hk
        | succ k =>
          simp only [List.get?_cons_succ] at hk ⊢
          exact ih k p hk hown

theorem shipProjectileCheck_flag (handleID : ℤ) (px py pr : ℚ)
    (ps : List Projectile) :
    (shipProjectileCheck handleID px py pr ps).2 =
      ps.any (fun p => !p.IsDestroyed && !(decide (p.OwnerID = handleID)) &&
        PointInCircle p.X p.Y px py pr) := by
  induction ps with
  | nil => rfl
  | cons q ps ih =>
    by_cases hq : (q.IsDestroyed || decide (q.OwnerID = handleID)) = true
    · simp only [shipProjectileCheck, hq, if_true, List.any_cons]
      rw [Bool.or_eq_true] at hq
      rcases hq with hq | hq
      · simp [hq, ih]
      · simp [hq, ih]
    · rw [Bool.or_eq_true] at hq
      push_neg at hq
      obtain ⟨hd, hown⟩ := hq
      have hd' : q.IsDestroyed = false := Bool.eq_false_iff.mpr hd
      have hown' : decide (q.OwnerID = handleID) = false := Bool.eq_false_iff.mpr hown
      by_cases hhit : PointInCircle q.X q.Y px py pr = true
      · simp [shipProjectileCheck, hd', hown', hhit, List.any_cons]
      · simp [shipProjectileCheck, hd', hown', hhit, List.any_cons, ih]

/-- Claim C7: a projectile whose `OwnerID` matches the client's id never
registers a hit on that client's ship — the ship–projectile check leaves it
untouched, and the hit flag equals the scan over non-own, undestroyed,
overlapping projectiles only (so overlap by own projectiles is harmless). -/
theorem C7_own_projectile_immunity (handleID : ℤ) (px py pr : ℚ)
    (ps : List Projectile) :
    (∀ (k : ℕ) (p : Projectile), ps.get? k = some p → p.OwnerID = handleID →
      (shipProjectileCheck handleID px py pr ps).1.get? k = some p) ∧
    (shipProjectileCheck handleID px py pr ps).2 =
      ps.any (fun p => !p.IsDestroyed && !(decide (p.OwnerID = handleID)) &&
        PointInCircle p.X p.Y px py pr) :=
  ⟨shipProjectileCheck_own handleID px py pr ps,
    shipProjectileCheck_flag handleID px py pr ps⟩

/-- Witness for `C7_own_projectile_immunity`: the owner's own projectile
sitting exactly on the ship is skipped — not destroyed, no hit. -/
theorem C7_own_projectile_immunity_witness :
    [Projectile.mk 0 0 0 0 1 1 false].get? 0 =
        some (Projectile.mk 0 0 0 0 1 1 false) ∧
    (Projectile.mk 0 0 0 0 1 1 false).OwnerID = 1 ∧
    (shipProjectileCheck 1 0 0 1 [Projectile.mk 0 0 0 0 1 1 false]).1.get? 0 =
      some (Projectile.mk 0 0 0 0 1 1 false) :=
  ⟨rfl, rfl,
    (C7_own_projectile_immunity 1 0 0 1 [Projectile.mk 0 0 0 0 1 1 false]).1 0
      (Projectile.mk 0 0 0 0 1 1 false) rfl rfl⟩

theorem runOps_invariant (ops : List ServerOp) :
    ∀ st : RegistryModel,
    ((runOps st ops).1.map (fun h => h.ID)).Pairwise (· < ·) ∧
    (∀ h ∈ (runOps st ops).1, st.nextClientID ≤ h.ID) ∧
    ((runOps st ops).1.map (fun h => h.eventsCh)).Pairwise (· < ·) ∧
    (∀ h ∈ (runOps st ops).1, st.allocs ≤ h.eventsCh) := by
  induction ops with
  | nil =>
    intro st
    simp [runOps]
  | cons op rest ih =>
    intro st
    cases op with
    | register u =>
      obtain ⟨ih1, ih2, ih3, ih4⟩ := ih (registerClient st u).2
      simp only [runOps]
      refine ⟨?_, ?_, ?_, ?_⟩
      · refine List.Pairwise.cons ?_ ih1
        intro b hb
        obtain ⟨h, hh, rfl⟩ := List.mem_map.mp hb
        have := ih2 h hh
        simp only [registerClient] at this
        calc (registerClient st u).1.ID = st.nextClientID := rfl
        _ < st.nextClientID + 1 := by omega
        _ ≤ h.ID := this
      · intro h hmem
        rcases List.mem_cons.mp hmem with rfl | hmem'
        · exact le_refl _
        · have := ih2 h hmem'
          simp only [registerClient] at this
          omega
      · refine List.Pairwise.cons ?_ ih3
        intro b hb
        obtain ⟨h, hh, rfl⟩ := List.mem_map.mp hb
        have := ih4 h hh
        simp only [registerClient] at this
        calc (registerClient st u).1.eventsCh = st.allocs := rfl
        _ < st.allocs + 1 := by omega
        _ ≤ h.eventsCh := this
      · intro h hmem
        rcases List.mem_cons.mp hmem with rfl | hmem'
        · exact le_refl _
        · have := ih4 h hmem'
          simp only [registerClient] at this
          omega
    | unregister cid =>
      have := ih (unregisterClient st cid)
      simpa only [runOps, unregisterClient] using this

/-- Claim C10: any sequence of `RegisterClient`/`UnregisterClient` calls on a
fresh server yields handles whose ids are pairwise distinct (the ids come
from the counter started at `1` in `NewServer` and only ever incremented —
unregistering never reuses an id) and whose events channels are pairwise
distinct fresh allocations; every id is at least `1`. -/
theorem C10_client_id_unique (ops : List ServerOp) :
    ((runOps newServerRegistry ops).1.map (fun h => h.ID)).Pairwise (· ≠ ·) ∧
    (∀ h ∈ (runOps newServerRegistry ops).1, 1 ≤ h.ID) ∧
    ((runOps newServerRegistry ops).1.map (fun h => h.eventsCh)).Pairwise (· ≠ ·) := by
  obtain ⟨h1, h2, h3, h4⟩ := runOps_invariant ops newServerRegistry
  exact ⟨h1.imp ne_of_lt, h2, h3.imp Nat.ne_of_lt⟩

theorem flatMap_range_map_length (H W : ℕ) (f : ℕ → ℕ → ℕ) :
    ((List.range H).flatMap fun r => (List.range W).map (f r)).length = H * W := by
  induction H with
  | zero => simp
  | succ H ih =>
    rw [List.range_succ, List.flatMap_append, List.length_append, ih]
    simp [Nat.succ_mul]

theorem flatMap_range_map_getD (H W : ℕ) (f : ℕ → ℕ → ℕ) (d : ℕ) :
    ∀ row col, row < H → col < W →
    ((List.range H).flatMap fun r => (List.range W).map (f r)).getD
        (row * W + col) d = f row col := by
  induction H with
  | zero =>
    intro row col h
    exact absurd h (Nat.not_lt_zero row)
  | succ H ih =>
    intro row col hrow hcol
    rw [List.range_succ, List.flatMap_append]
    rcases Nat.lt_succ_iff_lt_or_eq.mp hrow with h | rfl
    · have hidx : row * W + col < ((List.range H).flatMap fun r =>
          (List.range W).map (f r)).length := by
        rw [flatMap_range_map_length]
        calc row * W + col < row * W + W := by omega
          _ = (row + 1) * W := (Nat.succ_mul row W).symm
          _ ≤ H * W := Nat.mul_le_mul_right W h
      rw [List.getD_append _ _ _ _ hidx]
      exact ih row col h hcol
    · have hlen : ((List.range row).flatMap fun r =>
          (List.range W).map (f r)).length = row * W :=
        flatMap_range_map_length row W f
      rw [List.getD_append_right _ _ _ _ (by rw [hlen]; omega), hlen]
      simp only [List.flatMap_cons, List.flatMap_nil, List.append_nil]
      have hcol' : col < ((List.range W).map (f row)).length := by
        simpa using hcol
      rw [show row * W + col - row * W = col by omega,
        List.getD_eq_getElem _ _ hcol', List.getElem_map]
      congr 1
      exact List.getElem_range _ _

theorem cellStateOf_lt (top bottom : Bool) : cellStateOf top bottom < 4 := by
  cases top <;> cases bottom <;> decide

theorem render_emits_mem (c : Canvas) (row col : ℕ)
    (hrow : row < c.termHeight) (hcol : col < c.termWidth) :
    ((row + 1 + c.offsetRow, col + 1 + c.offsetCol,
        glyphOf (c.cellCurrent row col)) ∈ (c.render).1 ↔
      (c.forceRedraw = true ∨ c.cellPrevPacked row col / 4 % 2 = 1 ∨
        c.cellCurrent row col ≠ c.cellPrevPacked row col % 4)) := by
  have hemits : (c.render).1 = (List.range c.termHeight).flatMap fun r =>
      (List.range c.termWidth).filterMap fun c' =>
        c.renderEmit c.forceRedraw r c' := rfl
  rw [hemits]
  constructor
  · intro h
    rw [List.mem_flatMap] at h
    obtain ⟨r, _, hmem⟩ := h
    rw [List.mem_filterMap] at hmem
    obtain ⟨c', _, hemit⟩ := hmem
    by_cases hcond : (¬c.forceRedraw = true ∧
        ¬(c.cellPrevPacked r c' / 4 % 2 = 1) ∧
        c.cellCurrent r c' = c.cellPrevPacked r c' % 4)
    · rw [Canvas.renderEmit, if_pos hcond] at hemit
      exact absurd hemit (by simp)
    · rw [Canvas.renderEmit, if_neg hcond] at hemit
      have heq := Option.some.inj hemit
      have ha : r + 1 + c.offsetRow = row + 1 + c.offsetRow :=
        congrArg Prod.fst heq
      have hb : c' + 1 + c.offsetCol = col + 1 + c.offsetCol :=
        congrArg (fun t => t.2.1) heq
      have hr : r = row := by omega
      have hc : c' = col := by omega
      subst hr
      subst hc
      tauto
  · intro h
    have hcond : ¬(¬c.forceRedraw = true ∧
        ¬(c.cellPrevPacked row col / 4 % 2 = 1) ∧
        c.cellCurrent row col = c.cellPrevPacked row col % 4) := by tauto
    rw [List.mem_flatMap]
    refine ⟨row, List.mem_range.mpr hrow, ?_⟩
    rw [List.mem_filterMap]
    exact ⟨col, List.mem_range.mpr hcol, by rw [Canvas.renderEmit, if_neg hcond]⟩

theorem cellCurrent_lt (c : Canvas) (row col : ℕ) : c.cellCurrent row col < 4 :=
  cellStateOf_lt _ _

theorem render_prevCells_eq (c : Canvas) :
    (c.render).2.prevCells = (List.range c.termHeight).flatMap fun r =>
      (List.range c.termWidth).map fun c' => c.cellCurrent r c' % 4 := by
  have h0 : (c.render).2.prevCells =
      ((List.range c.termHeight).flatMap fun r =>
        (List.range c.termWidth).map fun c' => c.cellCurrent r c').map
        (fun b => b % 4) := rfl
  rw [h0, List.map_flatMap]
  simp only [List.map_map]
  rfl

/-- Claim C9: in `Canvas.Render`, each cell's new state is the half-block
table of its two vertical pixels; a cursor-position + glyph is emitted for a
cell iff `forceRedraw` is set, or the cell's dirty bit (bit 2 of the packed
byte) is set, or the new state differs from the stored one (low 2 bits); and
after the pass every stored cell state equals its new state with every dirty
bit cleared. -/
theorem C9_render_diff (c : Canvas) (row col : ℕ)
    (hrow : row < c.termHeight) (hcol : col < c.termWidth) :
    (glyphOf (cellStateOf false false) = ' ' ∧
      glyphOf (cellStateOf true false) = '▀' ∧
      glyphOf (cellStateOf false true) = '▄' ∧
      glyphOf (cellStateOf true true) = '█') ∧
    ((row + 1 + c.offsetRow, col + 1 + c.offsetCol,
        glyphOf (c.cellCurrent row col)) ∈ (c.render).1 ↔
      (c.forceRedraw = true ∨ c.cellPrevPacked row col / 4 % 2 = 1 ∨
        c.cellCurrent row col ≠ c.cellPrevPacked row col % 4)) ∧
    (c.render).2.prevCells.getD (row * c.termWidth + col) 0 =
      c.cellCurrent row col ∧
    ∀ e ∈ (c.render).2.prevCells, e / 4 % 2 = 0 := by
  refine ⟨by refine ⟨?_, ?_, ?_, ?_⟩ <;> decide,
    render_emits_mem c row col hrow hcol, ?_, ?_⟩
  · rw [render_prevCells_eq,
      flatMap_range_map_getD c.termHeight c.termWidth _ 0 row col hrow hcol]
    exact Nat.mod_eq_of_lt (cellCurrent_lt c row col)
  · intro e he
    rw [render_prevCells_eq, List.mem_flatMap] at he
    obtain ⟨r, -, he⟩ := he
    rw [List.mem_map] at he
    obtain ⟨c', -, rfl⟩ := he
    omega

/-- Witness for `C9_render_diff` at `sampleCanvas`, cell `(0, 1)` (previous
state `lower` with the dirty bit set). -/
theorem C9_render_diff_witness :
    (0 : ℕ) < sampleCanvas.termHeight ∧ (1 : ℕ) < sampleCanvas.termWidth ∧
    ((glyphOf (cellStateOf false false) = ' ' ∧
      glyphOf (cellStateOf true false) = '▀' ∧
      glyphOf (cellStateOf false true) = '▄' ∧
      glyphOf (cellStateOf true true) = '█') ∧
    ((0 + 1 + sampleCanvas.offsetRow, 1 + 1 + sampleCanvas.offsetCol,
        glyphOf (sampleCanvas.cellCurrent 0 1)) ∈ (sampleCanvas.render).1 ↔
      (sampleCanvas.forceRedraw = true ∨
        sampleCanvas.cellPrevPacked 0 1 / 4 % 2 = 1 ∨
        sampleCanvas.cellCurrent 0 1 ≠ sampleCanvas.cellPrevPacked 0 1 % 4)) ∧
    (sampleCanvas.render).2.prevCells.getD (0 * sampleCanvas.termWidth + 1) 0 =
      sampleCanvas.cellCurrent 0 1 ∧
    ∀ e ∈ (sampleCanvas.render).2.prevCells, e / 4 % 2 = 0) :=
  ⟨by decide, by decide, C9_render_diff sampleCanvas 0 1 (by decide) (by decide)⟩

theorem getD_set_self {α : Type} (l : List α) (n : ℕ) (a d : α)
    (h : n < l.length) : (l.set n a).getD n d = a := by
  rw [List.getD_eq_getElem?_getD, List.getElem?_set_self h]
  rfl

theorem getD_set_ne {α : Type} (l : List α) (n m : ℕ) (a d : α) (h : n ≠ m) :
    (l.set n a).getD m d = l.getD m d := by
  rw [List.getD_eq_getElem?_getD, List.getElem?_set_ne h,
    ← List.getD_eq_getElem?_getD]

theorem populateGridAux_params (ps : List (ℚ × ℚ)) :
    ∀ (g : SpatialGrid) (i : ℕ),
    (populateGridAux g i ps).cols = g.cols ∧
    (populateGridAux g i ps).rows = g.rows ∧
    (populateGridAux g i ps).invCellSize = g.invCellSize ∧
    (populateGridAux g i ps).cells.length = g.cells.length := by
  induction ps with
  | nil =>
    intro g i
    exact ⟨rfl, rfl, rfl, rfl⟩
  | cons p rest ih =>
    intro g i
    obtain ⟨h1, h2, h3, h4⟩ := ih (g.insert p.1 p.2 i) (i + 1)
    refine ⟨h1.trans rfl, h2.trans rfl, h3.trans rfl, h4.trans ?_⟩
    simp [SpatialGrid.insert]

theorem posToCell_lt (g : SpatialGrid) (hcols : 1 ≤ g.cols) (hrows : 1 ≤ g.rows)
    (x y : ℚ) :
    (g.posToCell x y).1 < g.cols ∧ (g.posToCell x y).2 < g.rows := by
  unfold SpatialGrid.posToCell
  constructor <;> dsimp only <;> split_ifs <;> omega

theorem posToCell_cell_index_lt (g : SpatialGrid) (hcols : 1 ≤ g.cols)
    (hrows : 1 ≤ g.rows) (hlen : g.cells.length = g.cols * g.rows) (x y : ℚ) :
    (g.posToCell x y).2 * g.cols + (g.posToCell x y).1 < g.cells.length := by
  obtain ⟨h1, h2⟩ := posToCell_lt g hcols hrows x y
  rw [hlen]
  calc (g.posToCell x y).2 * g.cols + (g.posToCell x y).1
      < (g.posToCell x y).2 * g.cols + g.cols := by omega
    _ = ((g.posToCell x y).2 + 1) * g.cols := by ring
    _ ≤ g.rows * g.cols := Nat.mul_le_mul_right _ (by omega)
    _ = g.cols * g.rows := Nat.mul_comm _ _

theorem insert_mem_self (g : SpatialGrid) (x y : ℚ) (i : ℕ)
    (hlen : (g.posToCell x y).2 * g.cols + (g.posToCell x y).1 < g.cells.length) :
    i ∈ (g.insert x y i).cellItems (g.posToCell x y) := by
  unfold SpatialGrid.insert SpatialGrid.cellItems
  dsimp only
  rw [getD_set_self _ _ _ _ hlen]
  simp

theorem insert_mem_mono (g : SpatialGrid) (x y : ℚ) (k i : ℕ) (cell : ℕ × ℕ)
    (h : i ∈ g.cellItems cell) : i ∈ (g.insert x y k).cellItems cell := by
  unfold SpatialGrid.insert SpatialGrid.cellItems at *
  dsimp only at *
  by_cases heq : (g.posToCell x y).2 * g.cols + (g.posToCell x y).1 =
      cell.2 * g.cols + cell.1
  · rw [← heq] at h ⊢
    by_cases hlt : (g.posToCell x y).2 * g.cols + (g.posToCell x y).1 <
        g.cells.length
    · rw [getD_set_self _ _ _ _ hlt]
      exact List.mem_append_left _ h
    · rw [List.getD_eq_getElem?_getD, List.getElem?_eq_none (by omega)] at h
      simp at h
  · rw [getD_set_ne _ _ _ _ _ heq]
    exact h

theorem populateGridAux_mono (rest : List (ℚ × ℚ)) :
    ∀ (g : SpatialGrid) (k i : ℕ) (cell : ℕ × ℕ), i ∈ g.cellItems cell →
      i ∈ (populateGridAux g k rest).cellItems cell := by
  induction rest with
  | nil =>
    intro g k i cell h
    exact h
  | cons p rest ih =>
    intro g k i cell h
    exact ih _ _ _ _ (insert_mem_mono g p.1 p.2 k i cell h)

theorem populateGridAux_mem (rest : List (ℚ × ℚ)) :
    ∀ (g : SpatialGrid) (i j : ℕ) (p : ℚ × ℚ),
      rest.get? j = some p →
      1 ≤ g.cols → 1 ≤ g.rows → g.cells.length = g.cols * g.rows →
      (i + j) ∈ (populateGridAux g i rest).cellItems (g.posToCell p.1 p.2) := by
  induction rest with
  | nil =>
    intro g i j p hj
    simp at hj
  | cons q rest ih =>
    intro g i j p hj hcols hrows hlen
    cases j with
    | zero =>
      have hq : q = p := by simpa using hj
      subst hq
      have hmem : i ∈ (g.insert q.1 q.2 i).cellItems (g.posToCell q.1 q.2) :=
        insert_mem_self g q.1 q.2 i
          (posToCell_cell_index_lt g hcols hrows hlen q.1 q.2)
      simpa using populateGridAux_mono rest _ (i + 1) i _ hmem
    | succ j =>
      rw [List.get?_cons_succ] at hj
      have hcols' : 1 ≤ (g.insert q.1 q.2 i).cols := hcols
      have hrows' : 1 ≤ (g.insert q.1 q.2 i).rows := hrows
      have hlen' : (g.insert q.1 q.2 i).cells.length =
          (g.insert q.1 q.2 i).cols * (g.insert q.1 q.2 i).rows := by
        simpa [SpatialGrid.insert] using hlen
      have := ih (g.insert q.1 q.2 i) (i + 1) j p hj hcols' hrows' hlen'
      have harith : i + 1 + j = i + (j + 1) := by omega
      rw [harith] at this
      have hcell : (g.insert q.1 q.2 i).posToCell p.1 p.2 = g.posToCell p.1 p.2 := rfl
      rw [hcell] at this
      exact this

theorem posToCell_floor (g : SpatialGrid) (cs : ℚ) (hcs : 0 < cs)
    (hinv : g.invCellSize = 1 / cs) (x y : ℚ)
    (hx0 : 0 ≤ x) (hx1 : x < g.cols * cs) (hy0 : 0 ≤ y) (hy1 : y < g.rows * cs) :
    ((g.posToCell x y).1 : ℤ) = ⌊x / cs⌋ ∧ ((g.posToCell x y).2 : ℤ) = ⌊y / cs⌋ := by
  have hxm : x * g.invCellSize = x / cs := by rw [hinv, mul_one_div]
  have hym : y * g.invCellSize = y / cs := by rw [hinv, mul_one_div]
  have hxq : 0 ≤ x / cs := div_nonneg hx0 hcs.le
  have hyq : 0 ≤ y / cs := div_nonneg hy0 hcs.le
  have htx : truncQ (x * g.invCellSize) = ⌊x / cs⌋ := by
    rw [hxm, truncQ, if_neg (not_lt.mpr hxq)]
  have hty : truncQ (y * g.invCellSize) = ⌊y / cs⌋ := by
    rw [hym, truncQ, if_neg (not_lt.mpr hyq)]
  have hfx0 : 0 ≤ ⌊x / cs⌋ := Int.floor_nonneg.mpr hxq
  have hfy0 : 0 ≤ ⌊y / cs⌋ := Int.floor_nonneg.mpr hyq
  have hfx1 : ⌊x / cs⌋ < (g.cols : ℤ) := by
    rw [Int.floor_lt]
    push_cast
    exact (div_lt_iff hcs).mpr hx1
  have hfy1 : ⌊y / cs⌋ < (g.rows : ℤ) := by
    rw [Int.floor_lt]
    push_cast
    exact (div_lt_iff hcs).mpr hy1
  unfold SpatialGrid.posToCell
  dsimp only
  rw [htx, hty, if_neg (not_lt.mpr hfx0), if_neg (not_le.mpr hfx1),
    if_neg (not_lt.mpr hfy0), if_neg (not_le.mpr hfy1)]
  exact ⟨Int.toNat_of_nonneg hfx0, Int.toNat_of_nonneg hfy0⟩

theorem NewSpatialGrid_params (cols rows : ℕ) (cs : ℚ) (hcs : 0 < cs)
    (hcols : 1 ≤ cols) (hrows : 1 ≤ rows) :
    (NewSpatialGrid (cols * cs) (rows * cs) cs).cols = cols ∧
    (NewSpatialGrid (cols * cs) (rows * cs) cs).rows = rows ∧
    (NewSpatialGrid (cols * cs) (rows * cs) cs).invCellSize = 1 / cs ∧
    (NewSpatialGrid (cols * cs) (rows * cs) cs).cells.length = cols * rows := by
  have hc : ((cols : ℚ) * cs) / cs = (cols : ℚ) := by
    field_simp
  have hr : ((rows : ℚ) * cs) / cs = (rows : ℚ) := by
    field_simp
  have hceilc : ⌈((cols : ℚ) * cs) / cs⌉ = (cols : ℤ) := by
    rw [hc, Int.ceil_natCast]
  have hceilr : ⌈((rows : ℚ) * cs) / cs⌉ = (rows : ℤ) := by
    rw [hr, Int.ceil_natCast]
  unfold NewSpatialGrid
  dsimp only
  rw [hceilc, hceilr, if_neg (by exact_mod_cast not_lt.mpr hcols),
    if_neg (by exact_mod_cast not_lt.mpr hrows)]
  simp

theorem queryAround_mem_of_cell (g : SpatialGrid) (x y : ℚ) (i : ℕ) (dr dc : ℤ)
    (hdr : dr ∈ ([-1, 0, 1] : List ℤ)) (hdc : dc ∈ ([-1, 0, 1] : List ℤ))
    (hmem : i ∈ g.cells.getD
      ((wrapIdx (((g.posToCell x y).2 : ℤ) + dr) g.rows) * g.cols +
        wrapIdx (((g.posToCell x y).1 : ℤ) + dc) g.cols).toNat []) :
    i ∈ g.queryAroundList x y := by
  unfold SpatialGrid.queryAroundList
  dsimp only
  rw [List.mem_flatMap]
  refine ⟨dr, hdr, ?_⟩
  rw [List.mem_flatMap]
  exact ⟨dc, hdc, hmem⟩

theorem axis_adjacent (cs : ℚ) (hcs : 0 < cs) (n : ℕ) (x1 x2 : ℚ)
    (h10 : 0 ≤ x1) (h11 : x1 < n * cs) (h20 : 0 ≤ x2) (h21 : x2 < n * cs)
    (hd : min |x1 - x2| ((n : ℚ) * cs - |x1 - x2|) < cs) :
    ∃ d ∈ ([-1, 0, 1] : List ℤ), wrapIdx (⌊x1 / cs⌋ + d) n = ⌊x2 / cs⌋ := by
  have hc10 : 0 ≤ ⌊x1 / cs⌋ := Int.floor_nonneg.mpr (div_nonneg h10 hcs.le)
  have hc11 : ⌊x1 / cs⌋ < (n : ℤ) := by
    rw [Int.floor_lt]
    push_cast
    exact (div_lt_iff hcs).mpr h11
  have hc20 : 0 ≤ ⌊x2 / cs⌋ := Int.floor_nonneg.mpr (div_nonneg h20 hcs.le)
  have hc21 : ⌊x2 / cs⌋ < (n : ℤ) := by
    rw [Int.floor_lt]
    push_cast
    exact (div_lt_iff hcs).mpr h21
  rcases min_lt_iff.mp hd with hlt | hwrap
  · have k1 : x2 / cs < x1 / cs + 1 := by
      have habs : x2 - x1 ≤ |x1 - x2| := by
        rw [abs_sub_comm]
        exact le_abs_self _
      have hdc : (x2 - x1) / cs < 1 := (div_lt_one hcs).mpr (by linarith)
      rw [sub_div] at hdc
      linarith
    have k2 : x1 / cs < x2 / cs + 1 := by
      have habs : x1 - x2 ≤ |x1 - x2| := le_abs_self _
      have hdc : (x1 - x2) / cs < 1 := (div_lt_one hcs).mpr (by linarith)
      rw [sub_div] at hdc
      linarith
    have hle1 : ⌊x2 / cs⌋ ≤ ⌊x1 / cs⌋ + 1 := by
      calc ⌊x2 / cs⌋ ≤ ⌊x1 / cs + 1⌋ := Int.floor_le_floor k1.le
        _ = ⌊x1 / cs⌋ + 1 := Int.floor_add_one _
    have hle2 : ⌊x1 / cs⌋ ≤ ⌊x2 / cs⌋ + 1 := by
      calc ⌊x1 / cs⌋ ≤ ⌊x2 / cs + 1⌋ := Int.floor_le_floor k2.le
        _ = ⌊x2 / cs⌋ + 1 := Int.floor_add_one _
    refine ⟨⌊x2 / cs⌋ - ⌊x1 / cs⌋, ?_, ?_⟩
    · simp only [List.mem_cons, List.mem_singleton]
      omega
    · rw [show ⌊x1 / cs⌋ + (⌊x2 / cs⌋ - ⌊x1 / cs⌋) = ⌊x2 / cs⌋ by ring]
      unfold wrapIdx
      rw [if_neg (by omega), if_neg (by omega)]
  · have habs : ((n : ℚ) - 1) * cs < |x1 - x2| := by
      nlinarith
    rcases le_total x1 x2 with hle | hle
    · have habs' : |x1 - x2| = x2 - x1 := by
        rw [abs_sub_comm]
        exact abs_of_nonneg (by linarith)
      rw [habs'] at habs
      have hx1small : x1 < cs := by
        nlinarith
      have hc1 : ⌊x1 / cs⌋ = 0 := by
        rw [Int.floor_eq_zero_iff]
        exact ⟨div_nonneg h10 hcs.le, (div_lt_one hcs).mpr hx1small⟩
      have hc2 : ⌊x2 / cs⌋ = (n : ℤ) - 1 := by
        rw [Int.floor_eq_iff]
        constructor
        · push_cast
          rw [le_div_iff hcs]
          nlinarith
        · push_cast
          rw [div_lt_iff hcs]
          nlinarith
      refine ⟨-1, by simp, ?_⟩
      rw [hc1, hc2]
      unfold wrapIdx
      rw [if_pos (by omega)]
      omega
    · have habs' : |x1 - x2| = x1 - x2 := abs_of_nonneg (by linarith)
      rw [habs'] at habs
      have hx2small : x2 < cs := by
        nlinarith
      have hc2 : ⌊x2 / cs⌋ = 0 := by
        rw [Int.floor_eq_zero_iff]
        exact ⟨div_nonneg h20 hcs.le, (div_lt_one hcs).mpr hx2small⟩
      have hc1 : ⌊x1 / cs⌋ = (n : ℤ) - 1 := by
        rw [Int.floor_eq_iff]
        constructor
        · push_cast
          rw [le_div_iff hcs]
          nlinarith
        · push_cast
          rw [div_lt_iff hcs]
          nlinarith
      refine ⟨1, by simp, ?_⟩
      rw [hc1, hc2]
      unfold wrapIdx
      rw [if_neg (by omega), if_pos (by omega)]
      omega

theorem torusDistSq_comm (x1 y1 x2 y2 W H : ℚ) :
    torusDistSq x2 y2 x1 y1 W H = torusDistSq x1 y1 x2 y2 W H := by
  unfold torusDistSq
  rw [abs_sub_comm x2 x1, abs_sub_comm y2 y1]

theorem grid_query_complete_aux (cs : ℚ) (cols rows : ℕ) (ps : List (ℚ × ℚ))
    (j : ℕ) (p1 p2 : ℚ × ℚ) (r1 r2 : ℚ)
    (hcs : 0 < cs) (hcols : 1 ≤ cols) (hrows : 1 ≤ rows)
    (hrange : ∀ p ∈ ps, 0 ≤ p.1 ∧ p.1 < cols * cs ∧ 0 ≤ p.2 ∧ p.2 < rows * cs)
    (hp1 : p1 ∈ ps) (hj : ps.get? j = some p2)
    (hr1 : 0 ≤ r1) (hr2 : 0 ≤ r2) (hcell : r1 + r2 ≤ cs)
    (hoverlap : torusDistSq p1.1 p1.2 p2.1 p2.2 ((cols : ℚ) * cs) ((rows : ℚ) * cs) <
      (r1 + r2) * (r1 + r2)) :
    j ∈ (populateGrid (NewSpatialGrid ((cols : ℚ) * cs) ((rows : ℚ) * cs) cs)
        ps).queryAroundList p1.1 p1.2 := by
  obtain ⟨hg1, hg2, hg3, hg4⟩ := NewSpatialGrid_params cols rows cs hcs hcols hrows
  obtain ⟨hp1c, hp2c, hp3c, hp4c⟩ :=
    populateGridAux_params ps (NewSpatialGrid ((cols : ℚ) * cs) ((rows : ℚ) * cs) cs) 0
  obtain ⟨hi0, hi1, hi2, hi3⟩ := hrange p1 hp1
  obtain ⟨hj0, hj1, hj2, hj3⟩ := hrange p2 (List.get?_mem hj)
  -- axis-wise toroidal distances are below the cell size
  have habs_x : |p1.1 - p2.1| < (cols : ℚ) * cs := by
    rw [abs_sub_lt_iff]
    constructor <;> linarith
  have habs_y : |p1.2 - p2.2| < (rows : ℚ) * cs := by
    rw [abs_sub_lt_iff]
    constructor <;> linarith
  have hmx0 : 0 ≤ min |p1.1 - p2.1| ((cols : ℚ) * cs - |p1.1 - p2.1|) :=
    le_min (abs_nonneg _) (by linarith)
  have hmy0 : 0 ≤ min |p1.2 - p2.2| ((rows : ℚ) * cs - |p1.2 - p2.2|) :=
    le_min (abs_nonneg _) (by linarith)
  have hover : min |p1.1 - p2.1| ((cols : ℚ) * cs - |p1.1 - p2.1|) *
        min |p1.1 - p2.1| ((cols : ℚ) * cs - |p1.1 - p2.1|) +
      min |p1.2 - p2.2| ((rows : ℚ) * cs - |p1.2 - p2.2|) *
        min |p1.2 - p2.2| ((rows : ℚ) * cs - |p1.2 - p2.2|) <
      (r1 + r2) * (r1 + r2) := hoverlap
  have hdx : min |p1.1 - p2.1| ((cols : ℚ) * cs - |p1.1 - p2.1|) < cs := by
    nlinarith
  have hdy : min |p1.2 - p2.2| ((rows : ℚ) * cs - |p1.2 - p2.2|) < cs := by
    nlinarith
  obtain ⟨dc, hdcmem, hdc⟩ := axis_adjacent cs hcs cols p1.1 p2.1 hi0 hi1 hj0 hj1 hdx
  obtain ⟨dr, hdrmem, hdr⟩ := axis_adjacent cs hcs rows p1.2 p2.2 hi2 hi3 hj2 hj3 hdy
  -- cell coordinates are the floors
  have hfi := posToCell_floor (NewSpatialGrid ((cols : ℚ) * cs) ((rows : ℚ) * cs) cs)
    cs hcs hg3 p1.1 p1.2 hi0 (by rw [hg1]; exact hi1) hi2 (by rw [hg2]; exact hi3)
  have hfj := posToCell_floor (NewSpatialGrid ((cols : ℚ) * cs) ((rows : ℚ) * cs) cs)
    cs hcs hg3 p2.1 p2.2 hj0 (by rw [hg1]; exact hj1) hj2 (by rw [hg2]; exact hj3)
  -- j is in its cell's bucket
  have hmemj : j ∈ (populateGrid (NewSpatialGrid ((cols : ℚ) * cs)
      ((rows : ℚ) * cs) cs) ps).cellItems
      ((NewSpatialGrid ((cols : ℚ) * cs) ((rows : ℚ) * cs) cs).posToCell p2.1 p2.2) := by
    have := populateGridAux_mem ps
      (NewSpatialGrid ((cols : ℚ) * cs) ((rows : ℚ) * cs) cs) 0 j p2 hj
      (by rw [hg1]; exact hcols) (by rw [hg2]; exact hrows)
      (by rw [hg4, hg1, hg2])
    simpa [populateGrid] using this
  -- the same posToCell on the populated grid
  have hptc : ∀ x y, (populateGrid (NewSpatialGrid ((cols : ℚ) * cs)
      ((rows : ℚ) * cs) cs) ps).posToCell x y =
      (NewSpatialGrid ((cols : ℚ) * cs) ((rows : ℚ) * cs) cs).posToCell x y := by
    intro x y
    unfold SpatialGrid.posToCell
    rw [show (populateGrid (NewSpatialGrid ((cols : ℚ) * cs) ((rows : ℚ) * cs) cs)
        ps).invCellSize = (NewSpatialGrid ((cols : ℚ) * cs) ((rows : ℚ) * cs)
        cs).invCellSize from hp3c,
      show (populateGrid (NewSpatialGrid ((cols : ℚ) * cs) ((rows : ℚ) * cs) cs)
        ps).cols = (NewSpatialGrid ((cols : ℚ) * cs) ((rows : ℚ) * cs) cs).cols
        from hp1c,
      show (populateGrid (NewSpatialGrid ((cols : ℚ) * cs) ((rows : ℚ) * cs) cs)
        ps).rows = (NewSpatialGrid ((cols : ℚ) * cs) ((rows : ℚ) * cs) cs).rows
        from hp2c]
  apply queryAround_mem_of_cell _ _ _ _ dr dc hdrmem hdcmem
  rw [hptc p1.1 p1.2,
    show (populateGrid (NewSpatialGrid ((cols : ℚ) * cs) ((rows : ℚ) * cs) cs)
      ps).rows = rows from hp2c.trans hg2,
    show (populateGrid (NewSpatialGrid ((cols : ℚ) * cs) ((rows : ℚ) * cs) cs)
      ps).cols = cols from hp1c.trans hg1,
    hfi.1, hfi.2, hdr, hdc, ← hfj.1, ← hfj.2]
  have hidx : ((((NewSpatialGrid ((cols : ℚ) * cs) ((rows : ℚ) * cs)
        cs).posToCell p2.1 p2.2).2 : ℤ) * (cols : ℤ) +
      (((NewSpatialGrid ((cols : ℚ) * cs) ((rows : ℚ) * cs)
        cs).posToCell p2.1 p2.2).1 : ℤ)).toNat =
      ((NewSpatialGrid ((cols : ℚ) * cs) ((rows : ℚ) * cs)
        cs).posToCell p2.1 p2.2).2 * cols +
      ((NewSpatialGrid ((cols : ℚ) * cs) ((rows : ℚ) * cs)
        cs).posToCell p2.1 p2.2).1 := by
    rw [show (((((NewSpatialGrid ((cols : ℚ) * cs) ((rows : ℚ) * cs)
        cs).posToCell p2.1 p2.2).2 : ℤ)) * (cols : ℤ) +
      (((NewSpatialGrid ((cols : ℚ) * cs) ((rows : ℚ) * cs)
        cs).posToCell p2.1 p2.2).1 : ℤ)) =
      ((((NewSpatialGrid ((cols : ℚ) * cs) ((rows : ℚ) * cs)
        cs).posToCell p2.1 p2.2).2 * cols +
      ((NewSpatialGrid ((cols : ℚ) * cs) ((rows : ℚ) * cs)
        cs).posToCell p2.1 p2.2).1 : ℕ) : ℤ) by push_cast; ring,
      Int.toNat_natCast]
  rw [hidx]
  have hcell_eq : (populateGrid (NewSpatialGrid ((cols : ℚ) * cs)
      ((rows : ℚ) * cs) cs) ps).cellItems
      ((NewSpatialGrid ((cols : ℚ) * cs) ((rows : ℚ) * cs) cs).posToCell
        p2.1 p2.2) =
      (populateGrid (NewSpatialGrid ((cols : ℚ) * cs) ((rows : ℚ) * cs) cs)
        ps).cells.getD
      (((NewSpatialGrid ((cols : ℚ) * cs) ((rows : ℚ) * cs) cs).posToCell
          p2.1 p2.2).2 * cols +
        ((NewSpatialGrid ((cols : ℚ) * cs) ((rows : ℚ) * cs) cs).posToCell
          p2.1 p2.2).1) [] := by
    unfold SpatialGrid.cellItems
    rw [show (populateGrid (NewSpatialGrid ((cols : ℚ) * cs) ((rows : ℚ) * cs) cs)
      ps).cols = cols from hp1c.trans hg1]
  rw [← hcell_eq]
  exact hmemj

/-- Claim C1 (amended): when `cellSize` evenly tiles the world —
`worldW = cols·cellSize`, `worldH = rows·cellSize` — and all inserted
positions lie in `[0, worldW) × [0, worldH)`, any two entities whose circles
overlap on the torus (toroidal distance² < `(r_i+r_j)²`) with
`r_i + r_j ≤ cellSize` are mutually visited: `QueryAround` at `i`'s position
reaches `j`'s index, and vice versa. -/
theorem C1_grid_completeness (cs : ℚ) (cols rows : ℕ) (ps : List (ℚ × ℚ))
    (i j : ℕ) (p1 p2 : ℚ × ℚ) (r1 r2 : ℚ)
    (hcs : 0 < cs) (hcols : 1 ≤ cols) (hrows : 1 ≤ rows)
    (hrange : ∀ p ∈ ps, 0 ≤ p.1 ∧ p.1 < cols * cs ∧ 0 ≤ p.2 ∧ p.2 < rows * cs)
    (hi : ps.get? i = some p1) (hj : ps.get? j = some p2)
    (hr1 : 0 ≤ r1) (hr2 : 0 ≤ r2) (hcell : r1 + r2 ≤ cs)
    (hoverlap : torusDistSq p1.1 p1.2 p2.1 p2.2 ((cols : ℚ) * cs)
      ((rows : ℚ) * cs) < (r1 + r2) * (r1 + r2)) :
    j ∈ (populateGrid (NewSpatialGrid ((cols : ℚ) * cs) ((rows : ℚ) * cs) cs)
        ps).queryAroundList p1.1 p1.2 ∧
    i ∈ (populateGrid (NewSpatialGrid ((cols : ℚ) * cs) ((rows : ℚ) * cs) cs)
        ps).queryAroundList p2.1 p2.2 := by
  constructor
  · exact grid_query_complete_aux cs cols rows ps j p1 p2 r1 r2 hcs hcols hrows
      hrange (List.get?_mem hi) hj hr1 hr2 hcell hoverlap
  · apply grid_query_complete_aux cs cols rows ps i p2 p1 r1 r2 hcs hcols hrows
      hrange (List.get?_mem hj) hi hr1 hr2 hcell
    rw [torusDistSq_comm]
    exact hoverlap

/-- Witness for `C1_grid_completeness`: a 3×2 grid of 10-cells, entities at
`(5,5)` and `(12,5)` with radii `4` — each one's `QueryAround` reaches the
other. -/
theorem C1_grid_completeness_witness :
    (0 : ℚ) < 10 ∧ (4 : ℚ) + 4 ≤ 10 ∧
    torusDistSq 5 5 12 5 (((3 : ℕ) : ℚ) * 10) (((2 : ℕ) : ℚ) * 10) <
      (4 + 4) * (4 + 4) ∧
    (1 ∈ (populateGrid (NewSpatialGrid (((3 : ℕ) : ℚ) * 10) (((2 : ℕ) : ℚ) * 10) 10)
        [((5 : ℚ), (5 : ℚ)), (12, 5)]).queryAroundList 5 5 ∧
      0 ∈ (populateGrid (NewSpatialGrid (((3 : ℕ) : ℚ) * 10) (((2 : ℕ) : ℚ) * 10) 10)
        [((5 : ℚ), (5 : ℚ)), (12, 5)]).queryAroundList 12 5) := by
  have hov : torusDistSq 5 5 12 5 (((3 : ℕ) : ℚ) * 10) (((2 : ℕ) : ℚ) * 10) <
      (4 + 4) * (4 + 4) := by
    unfold torusDistSq
    dsimp only
    push_cast
    norm_num
  refine ⟨by norm_num, by norm_num, hov, ?_⟩
  exact C1_grid_completeness 10 3 2 [((5 : ℚ), (5 : ℚ)), (12, 5)] 0 1 (5, 5)
    (12, 5) 4 4 (by norm_num) (by norm_num) (by norm_num)
    (by
      intro p hp
      simp only [List.mem_cons, List.mem_singleton] at hp
      rcases hp with rfl | rfl | h
      · push_cast
        norm_num
      · push_cast
        norm_num
      · simp at h)
    rfl rfl (by norm_num) (by norm_num) (by norm_num) hov

/-- Claim C1, counterexample: world `100 × 100`, `cellSize = 30` (so the last
grid column spans only `[90, 100)`), entities at `(0, 50)` and `(71, 50)`
with radii `15`: their toroidal distance is `29 < 30 = r_0 + r_1 ≤ cellSize`,
yet `QueryAround` at `(0, 50)` (cell column 0, wrapped columns `{3, 0, 1}`)
never reaches index 1 (cell column 2). -/
theorem C1_grid_counterexample :
    (15 : ℚ) + 15 ≤ 30 ∧
    torusDistSq 0 50 71 50 100 100 < (15 + 15) * (15 + 15) ∧
    1 ∉ (populateGrid (NewSpatialGrid 100 100 30)
      [((0 : ℚ), (50 : ℚ)), (71, 50)]).queryAroundList 0 50 := by
  have hcell1 : ∀ cells : List (List ℕ),
      (SpatialGrid.mk 30 (1/30) 4 4 cells).posToCell 0 50 = (0, 1) := by
    intro cells
    unfold SpatialGrid.posToCell
    dsimp only
    rw [show truncQ ((0 : ℚ) * (1/30)) = 0 by
        rw [truncQ, if_neg (by norm_num)]
        norm_num,
      show truncQ ((50 : ℚ) * (1/30)) = 1 by
        rw [truncQ, if_neg (by norm_num)]
        norm_num]
    norm_num
  have hcell2 : ∀ cells : List (List ℕ),
      (SpatialGrid.mk 30 (1/30) 4 4 cells).posToCell 71 50 = (2, 1) := by
    intro cells
    unfold SpatialGrid.posToCell
    dsimp only
    rw [show truncQ ((71 : ℚ) * (1/30)) = 2 by
        rw [truncQ, if_neg (by norm_num)]
        norm_num,
      show truncQ ((50 : ℚ) * (1/30)) = 1 by
        rw [truncQ, if_neg (by norm_num)]
        norm_num]
    norm_num
    decide
  have hG : NewSpatialGrid 100 100 30 =
      SpatialGrid.mk 30 (1/30) 4 4 (List.replicate 16 []) := by
    unfold NewSpatialGrid
    dsimp only
    rw [show ⌈(100 : ℚ) / 30⌉ = 4 by
        rw [Int.ceil_eq_iff]
        norm_num]
    norm_num
    decide
  have hins1 : (SpatialGrid.mk 30 (1/30) 4 4
        (List.replicate 16 ([] : List ℕ))).insert 0 50 0 =
      SpatialGrid.mk 30 (1/30) 4 4 ((List.replicate 16 []).set 4 [0]) := by
    unfold SpatialGrid.insert
    rw [hcell1]
    dsimp only
    rw [SpatialGrid.mk.injEq]
    refine ⟨rfl, rfl, rfl, rfl, ?_⟩
    decide
  have hins2 : (SpatialGrid.mk 30 (1/30) 4 4
        ((List.replicate 16 ([] : List ℕ)).set 4 [0])).insert 71 50 1 =
      SpatialGrid.mk 30 (1/30) 4 4
        (((List.replicate 16 []).set 4 [0]).set 6 [1]) := by
    unfold SpatialGrid.insert
    rw [hcell2]
    dsimp only
    rw [SpatialGrid.mk.injEq]
    refine ⟨rfl, rfl, rfl, rfl, ?_⟩
    decide
  have hpop : populateGrid (NewSpatialGrid 100 100 30)
      [((0 : ℚ), (50 : ℚ)), (71, 50)] =
      SpatialGrid.mk 30 (1/30) 4 4
        (((List.replicate 16 []).set 4 [0]).set 6 [1]) := by
    rw [show populateGrid (NewSpatialGrid 100 100 30)
        [((0 : ℚ), (50 : ℚ)), (71, 50)] =
        ((NewSpatialGrid 100 100 30).insert 0 50 0).insert 71 50 1 from rfl,
      hG, hins1, hins2]
  refine ⟨by norm_num, ?_, ?_⟩
  · unfold torusDistSq
    norm_num
  · rw [hpop]
    unfold SpatialGrid.queryAroundList
    rw [hcell1]
    dsimp only
    decide

end Asteroids
